import Mathlib

/-! PayloadChannel::UnixStreamSocket

A shallow embedding of `worker/src/PayloadChannel/UnixStreamSocket.cpp` and
`worker/include/PayloadChannel/Notification.hpp`: the netstring encoder
`SendImpl`, the two-frame `Send`, the pairing callbacks
`OnConsumerSocketMessage` / `OnConsumerSocketPayload`, and the read handler
`ConsumerSocket::UserOnUnixStreamRead`.

Conventions
* a byte is a natural number (a `uint8_t` is one below 256; no definition here
  does arithmetic on a byte other than reading a decimal digit);
* a C buffer argument `(pointer, length)` is the list of the `length` bytes at
  the pointer;
* a C array that is written in place (`WriteBuffer`, the receive `buffer`) is a
  function from index to byte, so that earlier contents stay visible;
* `size_t` values are natural numbers; the lengths met here stay far below
  `2 ^ 64`, and the one subtraction, `bufferDataLen - msgStart`, is taken where
  `msgStart ≤ bufferDataLen`;
* calls that leave the two files (`Write`, `json::dump`, `json::parse`, the
  `Notification` constructor, the channel's listener) are recorded or taken as
  parameters.
-/

namespace PayloadChannel

/-- An in-place C array: index to byte. -/
abbrev Mem := Nat → Nat

/-- The assignment `m[i] = v`. -/
def store (m : Mem) (i : Nat) (v : Nat) : Mem :=
  fun j => if j = i then v else m j

/-- The call `std::memcpy(m + dst, src, src.length)` (also `std::memmove` once
the source bytes have been read out). -/
def memcpy (m : Mem) (dst : Nat) (src : List Nat) : Mem :=
  fun j => if dst ≤ j ∧ j < dst + src.length then src.getD (j - dst) 0 else m j

/-- The `len` bytes of `m` starting at `off`. -/
def memRead (m : Mem) (off len : Nat) : List Nat :=
  (List.range len).map (fun i => m (off + i))

/-- The constant `static constexpr size_t NsMessageMaxLen`, 4194313. -/
def NsMessageMaxLen : Nat := 4194313

/-- The constant `static constexpr size_t NsPayloadMaxLen`, 4194304. -/
def NsPayloadMaxLen : Nat := 4194304

/-! ## `sprintf("%zu:")` and `ceil(log10(x))` -/

/-- Digits of `n`, most significant first, as ASCII codes, pushed in front of
`acc`. -/
def toDecimalAux : Nat → Nat → List Nat → List Nat
  | 0, _, acc => acc
  | fuel + 1, n, acc =>
    if n < 10 then (48 + n) :: acc
    else toDecimalAux fuel (n / 10) ((48 + n % 10) :: acc)

/-- What `%zu` prints for `n`: its decimal digits, no sign, no padding. -/
def toDecimal (n : Nat) : List Nat := toDecimalAux (n + 1) n []

/-- The call `std::sprintf(m, "%zu:", n)`: the digits, a colon and the
terminating NUL, from index 0. -/
def sprintfLen (m : Mem) (n : Nat) : Mem :=
  memcpy m 0 (toDecimal n ++ [58, 0])

/-- Least `k' ≥ k` with `x ≤ 10 ^ k'`, searching at most `fuel` steps. -/
def ceilLog10Aux : Nat → Nat → Nat → Nat
  | 0, _, k => k
  | fuel + 1, x, k => if x ≤ 10 ^ k then k else ceilLog10Aux fuel x (k + 1)

/-- The value of `std::ceil(std::log10(x))` for an integer `x ≥ 1`: the least
`k` with `x ≤ 10 ^ k`. The source computes it in double precision on
`nsPayloadLen + 1`, which a double holds exactly; the embedding takes the
library functions at their mathematical value. -/
def ceilLog10 (x : Nat) : Nat := ceilLog10Aux x x 0

/-! ## The producer side -/

/-- The producer socket as `Send` sees it: whether it is closed, and the byte
blocks handed to `Write`, oldest first. -/
structure ProducerSocket where
  closed : Bool
  written : List (List Nat)

/-- The call `this->producerSocket.Write(data, len)`, recorded. -/
def ProducerSocket.Write (p : ProducerSocket) (data : List Nat) : ProducerSocket :=
  { p with written := p.written ++ [data] }

/-- The body of `UnixStreamSocket::SendImpl` up to the `Write` call: the scratch buffer
after the stores, and `nsLen`. -/
def SendImplFill (WriteBuffer : Mem) (nsPayload : List Nat) : Mem × Nat :=
  let nsPayloadLen := nsPayload.length
  if nsPayloadLen = 0 then
    let nsNumLen := 1
    let wb := store (store (store WriteBuffer 0 48) 1 58) 2 44
    (wb, nsNumLen + nsPayloadLen + 2)
  else
    let nsNumLen := ceilLog10 (nsPayloadLen + 1)
    let wb := sprintfLen WriteBuffer nsPayloadLen
    let wb := memcpy wb (nsNumLen + 1) nsPayload
    let wb := store wb (nsNumLen + nsPayloadLen + 1) 44
    (wb, nsNumLen + nsPayloadLen + 2)

/-- The bytes `SendImpl` passes to `Write`: the first `nsLen` bytes of the
scratch buffer. -/
def SendImplFrame (WriteBuffer : Mem) (nsPayload : List Nat) : List Nat :=
  memRead (SendImplFill WriteBuffer nsPayload).1 0 (SendImplFill WriteBuffer nsPayload).2

/-- The wire format of one frame: `<decimal-length>:<payload-bytes>,`. -/
def netstring (b : List Nat) : List Nat :=
  toDecimal b.length ++ 58 :: (b ++ [44])

/-! ## Notifications and the channel state -/

/-- The enumeration `Notification::EventId`. -/
inductive EventId where
  | DATA_PRODUCER_SEND
  deriving DecidableEq, Repr

/-- The class `PayloadChannel::Notification`, over the JSON value type of the JSON
library. `payload` is `none` for the initial `nullptr`, otherwise the
`payloadLen` bytes the pointer refers to. -/
structure Notification (Json : Type) where
  event : String
  eventId : EventId
  internal : Json
  data : Json
  payload : Option (List Nat)
  payloadLen : Nat

/-- The fields of `ConsumerSocket` (most of them inherited from the base class)
that `UserOnUnixStreamRead` reads and writes, and the messages it passes to
`MS_ERROR`. -/
structure ConsumerSocket where
  closed : Bool
  buffer : Mem
  bufferSize : Nat
  bufferDataLen : Nat
  msgStart : Nat
  errors : List String

/-- The class `PayloadChannel::UnixStreamSocket` together with what it acts on: its two
sockets, the pending notification, the static `WriteBuffer`, the notifications
passed to `listener->OnPayloadChannelNotification` (oldest first) and the
messages passed to `MS_ERROR`. -/
structure UnixStreamSocket (Json : Type) where
  consumerSocket : ConsumerSocket
  producerSocket : ProducerSocket
  ongoingNotification : Option (Notification Json)
  WriteBuffer : Mem
  notified : List (Notification Json)
  errors : List String

/-- The method `UnixStreamSocket::SendImpl`: fill the scratch buffer, then
`Write` its first `nsLen` bytes. -/
def UnixStreamSocket.SendImpl {Json : Type} (ch : UnixStreamSocket Json)
    (nsPayload : List Nat) : UnixStreamSocket Json :=
  let filled := SendImplFill ch.WriteBuffer nsPayload
  { ch with
    WriteBuffer := filled.1
    producerSocket := ch.producerSocket.Write (memRead filled.1 0 filled.2) }

/-- The method `UnixStreamSocket::Send`; `dump` is `json::dump` of the JSON library. -/
def UnixStreamSocket.Send {Json : Type} (dump : Json → List Nat) (ch : UnixStreamSocket Json)
    (jsonMessage : Json) (payload : List Nat) : UnixStreamSocket Json :=
  if ch.producerSocket.closed then ch
  else
    let message := dump jsonMessage
    if message.length > NsPayloadMaxLen then
      { ch with errors := ch.errors ++ ["mesage too big"] }
    else if payload.length > NsPayloadMaxLen then
      { ch with errors := ch.errors ++ ["payload too big"] }
    else
      (ch.SendImpl message).SendImpl payload

/-- The C function `isdigit(c)` in the C locale. -/
def isdigit (c : Nat) : Bool := decide (48 ≤ c) && decide (c ≤ 57)

/-- The number a run of ASCII digits denotes, as the decoder accumulates it. -/
def digitsValue (ds : List Nat) : Nat :=
  ds.foldl (fun v c => v * 10 + (c - 48)) 0

/-! ## The netstring decoder -/

/-- The non-zero return codes of `netstring_read`. -/
inductive NetstringError where
  | NETSTRING_ERROR_TOO_LONG
  | NETSTRING_ERROR_NO_COLON
  | NETSTRING_ERROR_TOO_SHORT
  | NETSTRING_ERROR_NO_COMMA
  | NETSTRING_ERROR_LEADING_ZERO
  | NETSTRING_ERROR_NO_LENGTH
  deriving DecidableEq, Repr

/-- Modelled from the spec: `netstring_read` of `<netstring.h>`, the decoder the
read loop calls, whose source is not part of the two embedded files. Following
the spec's Decode, it scans an unsigned decimal length with no leading zero,
then a colon, then requires that many bytes and a trailing comma inside the
slice. A slice shorter than the shortest frame `0:,`, or one that ends before
the announced frame does, is Incomplete (`TOO_SHORT`); a decoded length above
the maximum frame payload size is `TOO_LONG`. On success the result is the
offset of the content inside the slice (`*netstring_start` minus the slice
start) and the content length (`*netstring_length`). -/
def netstring_read (buffer : List Nat) : Except NetstringError (Nat × Nat) :=
  if buffer.length < 3 then .error .NETSTRING_ERROR_TOO_SHORT
  else if buffer.getD 0 0 = 48 ∧ isdigit (buffer.getD 1 0) = true then
    .error .NETSTRING_ERROR_LEADING_ZERO
  else if isdigit (buffer.getD 0 0) = false then .error .NETSTRING_ERROR_NO_LENGTH
  else
    let digits := buffer.takeWhile isdigit
    let i := digits.length
    let len := digitsValue digits
    if len > NsPayloadMaxLen then .error .NETSTRING_ERROR_TOO_LONG
    else if i + len + 1 ≥ buffer.length then .error .NETSTRING_ERROR_TOO_SHORT
    else if buffer.getD i 0 ≠ 58 then .error .NETSTRING_ERROR_NO_COLON
    else if buffer.getD (i + 1 + len) 0 ≠ 44 then .error .NETSTRING_ERROR_NO_COMMA
    else .ok (i + 1, len)

/-- The name of a return code, as the read handler logs it. -/
def NetstringError.name : NetstringError → String
  | .NETSTRING_ERROR_TOO_LONG => "NETSTRING_ERROR_TOO_LONG"
  | .NETSTRING_ERROR_NO_COLON => "NETSTRING_ERROR_NO_COLON"
  | .NETSTRING_ERROR_TOO_SHORT => "NETSTRING_ERROR_TOO_SHORT"
  | .NETSTRING_ERROR_NO_COMMA => "NETSTRING_ERROR_NO_COMMA"
  | .NETSTRING_ERROR_LEADING_ZERO => "NETSTRING_ERROR_LEADING_ZERO"
  | .NETSTRING_ERROR_NO_LENGTH => "NETSTRING_ERROR_NO_LENGTH"

/-- The value the read loop gives `readLen` after a successful decode
(source lines 255-256): content offset, plus content length, plus one for the
comma. -/
def consumedLen (decoded : Nat × Nat) : Nat := decoded.1 + decoded.2 + 1

/-! ## The consumer side -/

/-- The interface `ConsumerSocket::Listener`: the two callbacks the read handler invokes, as
functions on the state `L` of whoever listens. -/
structure ConsumerSocket.Listener (Json L : Type) where
  OnConsumerSocketMessage : L → Json → L
  OnConsumerSocketPayload : L → List Nat → Nat → L

/-- The method `ConsumerSocket::UserOnUnixStreamRead`; `parse` is `json::parse` of the JSON
library, `none` when it throws `json::parse_error`.

Every path through the body of the `while (true)` ends in a `return` (source
lines 168, 207, 250, 297 and 304), so the body runs once and lines 307-328
(cursor advance, `continue`, `break`) are never reached; the handler is that
single pass. The `readLen` recomputed at lines 255-256 (`consumedLen`) is only
read by those unreachable lines. -/
def ConsumerSocket.UserOnUnixStreamRead {Json L : Type} (parse : List Nat → Option Json)
    (listener : ConsumerSocket.Listener Json L) (cs : ConsumerSocket) (l : L) :
    ConsumerSocket × L :=
  if cs.closed then (cs, l)
  else
    let readLen := cs.bufferDataLen - cs.msgStart
    match netstring_read (memRead cs.buffer cs.msgStart readLen) with
    | .error .NETSTRING_ERROR_TOO_SHORT =>
      if cs.bufferDataLen = cs.bufferSize then
        if cs.msgStart ≠ 0 then
          ({ cs with
              buffer := memcpy cs.buffer 0 (memRead cs.buffer cs.msgStart readLen)
              msgStart := 0
              bufferDataLen := readLen }, l)
        else
          ({ cs with
              msgStart := 0
              bufferDataLen := 0
              errors := cs.errors ++ ["no more space in the buffer for the unfinished message being parsed, discarding it"] }, l)
      else (cs, l)
    | .error e =>
      ({ cs with msgStart := 0, bufferDataLen := 0, errors := cs.errors ++ [e.name] }, l)
    | .ok (msgStart, msgLen) =>
      if msgLen > 0 then
        if cs.buffer (cs.msgStart + msgStart) = 80 then
          (cs, listener.OnConsumerSocketPayload l
            (memRead cs.buffer (cs.msgStart + msgStart + 1) (msgLen - 1)) (msgLen - 1))
        else if cs.buffer (cs.msgStart + msgStart) = 123 then
          match parse (memRead cs.buffer (cs.msgStart + msgStart) msgLen) with
          | some jsonMessage => (cs, listener.OnConsumerSocketMessage l jsonMessage)
          | none => ({ cs with errors := cs.errors ++ ["JSON parsing error"] }, l)
        else
          ({ cs with errors := cs.errors ++ ["not a JSON message nor a payload"] }, l)
      else
        ({ cs with errors := cs.errors ++ ["message length is 0, discarding"] }, l)

/-- Modelled from the spec: the read event of the base class
(`::UnixStreamSocket`, not part of the two embedded files) up to its call of
`UserOnUnixStreamRead`: the bytes read are appended at `buffer[dataLen..]` and
`dataLen` grows by the read size. -/
def ConsumerSocket.received (cs : ConsumerSocket) (chunk : List Nat) : ConsumerSocket :=
  { cs with
    buffer := memcpy cs.buffer cs.bufferDataLen chunk
    bufferDataLen := cs.bufferDataLen + chunk.length }

/-- A read event on the consumer socket: the chunk is appended to the receive
buffer and the read handler runs; the state is the socket paired with its
listener. -/
def ConsumerSocket.OnRead {Json L : Type} (parse : List Nat → Option Json)
    (listener : ConsumerSocket.Listener Json L) (st : ConsumerSocket × L) (chunk : List Nat) :
    ConsumerSocket × L :=
  (st.1.received chunk).UserOnUnixStreamRead parse listener st.2

/-- One call of a `ConsumerSocket::Listener` callback. -/
inductive Dispatched (Json : Type) where
  | message (jsonMessage : Json)
  | payload (payload : List Nat) (payloadLen : Nat)
  deriving DecidableEq, Repr

/-- A listener that only records the callbacks it receives, oldest first. -/
def recorder (Json : Type) : ConsumerSocket.Listener Json (List (Dispatched Json)) where
  OnConsumerSocketMessage := fun l jsonMessage => l ++ [.message jsonMessage]
  OnConsumerSocketPayload := fun l payload payloadLen => l ++ [.payload payload payloadLen]

/-! ## The pairing callbacks -/

/-- Modelled from the spec: `Notification::SetPayload`, declared in
`Notification.hpp` and defined outside the two embedded files: it attaches the
payload bytes and their length to the notification. -/
def Notification.SetPayload {Json : Type} (n : Notification Json) (payload : List Nat)
    (payloadLen : Nat) : Notification Json :=
  { n with payload := some payload, payloadLen := payloadLen }

/-- The method `UnixStreamSocket::OnConsumerSocketMessage`; `newNotification` is the
constructor `Notification(json&)`, `none` when it throws `MediaSoupError`. -/
def UnixStreamSocket.OnConsumerSocketMessage {Json : Type}
    (newNotification : Json → Option (Notification Json)) (ch : UnixStreamSocket Json)
    (jsonMessage : Json) : UnixStreamSocket Json :=
  match ch.ongoingNotification with
  | some _ =>
    { ch with errors := ch.errors ++ ["ongoing notification exists, discarding received message"] }
  | none =>
    match newNotification jsonMessage with
    | some n => { ch with ongoingNotification := some n }
    | none => { ch with errors := ch.errors ++ ["discarding wrong Payload Channel notification"] }

/-- The method `UnixStreamSocket::OnConsumerSocketPayload`; `listenerThrows n` is the
`what()` of the `MediaSoupError` that `listener->OnPayloadChannelNotification`
throws for `n`, `none` when it returns normally. -/
def UnixStreamSocket.OnConsumerSocketPayload {Json : Type}
    (listenerThrows : Notification Json → Option String) (ch : UnixStreamSocket Json)
    (payload : List Nat) (payloadLen : Nat) : UnixStreamSocket Json :=
  match ch.ongoingNotification with
  | none =>
    { ch with errors := ch.errors ++ ["no ongoing notification, discarding received payload"] }
  | some n =>
    let n := n.SetPayload payload payloadLen
    let ch := { ch with ongoingNotification := some n, notified := ch.notified ++ [n] }
    let ch :=
      match listenerThrows n with
      | some what => { ch with errors := ch.errors ++ ["notification error: " ++ what] }
      | none => ch
    { ch with ongoingNotification := none }

/-- The channel in its role of `ConsumerSocket::Listener` (the `this` passed to
the `consumerSocket` constructor). -/
def UnixStreamSocket.asListener {Json : Type}
    (newNotification : Json → Option (Notification Json))
    (listenerThrows : Notification Json → Option String) :
    ConsumerSocket.Listener Json (UnixStreamSocket Json) where
  OnConsumerSocketMessage := UnixStreamSocket.OnConsumerSocketMessage newNotification
  OnConsumerSocketPayload := UnixStreamSocket.OnConsumerSocketPayload listenerThrows

/-- A read event on the channel's consumer socket: the chunk is appended to the
receive buffer and the read handler runs with the channel as its listener. -/
def UnixStreamSocket.OnRead {Json : Type} (parse : List Nat → Option Json)
    (newNotification : Json → Option (Notification Json))
    (listenerThrows : Notification Json → Option String) (ch : UnixStreamSocket Json)
    (chunk : List Nat) : UnixStreamSocket Json :=
  let r := (ch.consumerSocket.received chunk).UserOnUnixStreamRead parse
    (UnixStreamSocket.asListener newNotification listenerThrows) ch
  { r.2 with consumerSocket := r.1 }

/-- The constructor `UnixStreamSocket(consumerFd, producerFd)`: both sockets
open with `bufferSize = NsMessageMaxLen`, nothing buffered, nothing pending. -/
def UnixStreamSocket.new (Json : Type) (buffer WriteBuffer : Mem) : UnixStreamSocket Json where
  consumerSocket := ⟨false, buffer, NsMessageMaxLen, 0, 0, []⟩
  producerSocket := ⟨false, []⟩
  ongoingNotification := none
  WriteBuffer := WriteBuffer
  notified := []
  errors := []

/-! ## Sample collaborators, for evaluating the model -/

/-- The 29 ASCII codes of a control message text: a JSON object whose only
member is event, with the value dataProducer.send. -/
def sampleControlText : List Nat :=
  [123, 34, 101, 118, 101, 110, 116, 34, 58, 34, 100, 97, 116, 97, 80, 114, 111, 100, 117,
    99, 101, 114, 46, 115, 101, 110, 100, 34, 125]

/-- A sample `json::parse`: it accepts the sample control text, standing for its
own JSON value, and rejects every other text. -/
def sampleParse (text : List Nat) : Option (List Nat) :=
  if text = sampleControlText then some text else none

/-- A sample `Notification` constructor: it accepts the sample control message,
whose event it resolves to `DATA_PRODUCER_SEND` and whose absent `internal` and
`data` members it leaves empty, and throws on every other message. -/
def sampleNewNotification (jsonMessage : List Nat) : Option (Notification (List Nat)) :=
  if jsonMessage = sampleControlText then
    some ⟨"dataProducer.send", .DATA_PRODUCER_SEND, [], [], none, 0⟩
  else none

/-- A sample open consumer socket of capacity `bufferSize` whose buffer holds
`bytes` from index 0, with the cursor at `msgStart`. -/
def sampleSocket (bytes : List Nat) (bufferSize msgStart : Nat) : ConsumerSocket :=
  ⟨false, memcpy (fun _ => 0) 0 bytes, bufferSize, bytes.length, msgStart, []⟩

/-- The method `ConsumerSocket::UserOnUnixStreamRead` with the decoder it
calls, `netstring_read` of `<netstring.h>`, taken as the parameter `decode`. The
body is that of `UserOnUnixStreamRead`, which is this function at the decoder
modelled from the spec; what is proved here for every `decode` holds whatever
the decoder outside the two embedded files answers. -/
def ConsumerSocket.UserOnUnixStreamReadWith {Json L : Type}
    (decode : List Nat → Except NetstringError (Nat × Nat))
    (parse : List Nat → Option Json)
    (listener : ConsumerSocket.Listener Json L) (cs : ConsumerSocket) (l : L) :
    ConsumerSocket × L :=
  if cs.closed then (cs, l)
  else
    let readLen := cs.bufferDataLen - cs.msgStart
    match decode (memRead cs.buffer cs.msgStart readLen) with
    | .error .NETSTRING_ERROR_TOO_SHORT =>
      if cs.bufferDataLen = cs.bufferSize then
        if cs.msgStart ≠ 0 then
          ({ cs with
              buffer := memcpy cs.buffer 0 (memRead cs.buffer cs.msgStart readLen)
              msgStart := 0
              bufferDataLen := readLen }, l)
        else
          ({ cs with
              msgStart := 0
              bufferDataLen := 0
              errors := cs.errors ++ ["no more space in the buffer for the unfinished message being parsed, discarding it"] }, l)
      else (cs, l)
    | .error e =>
      ({ cs with msgStart := 0, bufferDataLen := 0, errors := cs.errors ++ [e.name] }, l)
    | .ok (msgStart, msgLen) =>
      if msgLen > 0 then
        if cs.buffer (cs.msgStart + msgStart) = 80 then
          (cs, listener.OnConsumerSocketPayload l
            (memRead cs.buffer (cs.msgStart + msgStart + 1) (msgLen - 1)) (msgLen - 1))
        else if cs.buffer (cs.msgStart + msgStart) = 123 then
          match parse (memRead cs.buffer (cs.msgStart + msgStart) msgLen) with
          | some jsonMessage => (cs, listener.OnConsumerSocketMessage l jsonMessage)
          | none => ({ cs with errors := cs.errors ++ ["JSON parsing error"] }, l)
        else
          ({ cs with errors := cs.errors ++ ["not a JSON message nor a payload"] }, l)
      else
        ({ cs with errors := cs.errors ++ ["message length is 0, discarding"] }, l)

/-- A sample decoder: the decoder modelled from the spec with its configured
maximum set to 999999999, the largest nine-digit length, instead of
`NsPayloadMaxLen`; it can wait for a frame that announces more bytes than the
receive buffer of the channel holds. -/
def sampleDecoder (buffer : List Nat) : Except NetstringError (Nat × Nat) :=
  if buffer.length < 3 then .error .NETSTRING_ERROR_TOO_SHORT
  else if buffer.getD 0 0 = 48 ∧ isdigit (buffer.getD 1 0) = true then
    .error .NETSTRING_ERROR_LEADING_ZERO
  else if isdigit (buffer.getD 0 0) = false then .error .NETSTRING_ERROR_NO_LENGTH
  else
    let digits := buffer.takeWhile isdigit
    let i := digits.length
    let len := digitsValue digits
    if len > 999999999 then .error .NETSTRING_ERROR_TOO_LONG
    else if i + len + 1 ≥ buffer.length then .error .NETSTRING_ERROR_TOO_SHORT
    else if buffer.getD i 0 ≠ 58 then .error .NETSTRING_ERROR_NO_COLON
    else if buffer.getD (i + 1 + len) 0 ≠ 44 then .error .NETSTRING_ERROR_NO_COMMA
    else .ok (i + 1, len)

/-- A sample open consumer socket at the capacity the channel constructs,
`NsMessageMaxLen`, filled to that capacity, with the cursor at 0: the buffer
starts with `99999999:`, the head of a frame that announces 99999999 bytes, and
holds zero bytes behind it. -/
def sampleFullSocket : ConsumerSocket :=
  ⟨false, memcpy (fun _ => 0) 0 [57, 57, 57, 57, 57, 57, 57, 57, 58], NsMessageMaxLen,
    NsMessageMaxLen, 0, []⟩

/-! ## Memory lemmas -/

theorem memRead_length (m : Mem) (off len : Nat) : (memRead m off len).length = len := by
  simp [memRead]

theorem memRead_congr (m m2 : Mem) (off len : Nat)
    (h : ∀ i, i < len → m (off + i) = m2 (off + i)) :
    memRead m off len = memRead m2 off len := by
  unfold memRead
  apply List.map_congr_left
  intro i hi
  exact h i (List.mem_range.mp hi)

theorem memRead_add (m : Mem) (off a b : Nat) :
    memRead m off (a + b) = memRead m off a ++ memRead m (off + a) b := by
  unfold memRead
  rw [List.range_add, List.map_append, List.map_map]
  congr 1
  apply List.map_congr_left
  intro i _
  simp [Nat.add_assoc]

theorem memRead_store_of_outside (m : Mem) (i v off len : Nat)
    (h : i < off ∨ off + len ≤ i) :
    memRead (store m i v) off len = memRead m off len := by
  apply memRead_congr
  intro j hj
  have : off + j ≠ i := by omega
  simp [store, this]

theorem memRead_store_self (m : Mem) (i v : Nat) :
    memRead (store m i v) i 1 = [v] := by
  simp [memRead, store, List.range_succ]

theorem memRead_memcpy_of_outside (m : Mem) (dst : Nat) (src : List Nat) (off len : Nat)
    (h : dst + src.length ≤ off ∨ off + len ≤ dst) :
    memRead (memcpy m dst src) off len = memRead m off len := by
  apply memRead_congr
  intro j hj
  have : ¬ (dst ≤ off + j ∧ off + j < dst + src.length) := by omega
  simp [memcpy, this]

theorem memRead_memcpy_take (m : Mem) (dst : Nat) (xs ys : List Nat) :
    memRead (memcpy m dst (xs ++ ys)) dst xs.length = xs := by
  apply List.ext_getElem
  · simp [memRead]
  · intro i h1 h2
    have hi : i < xs.length := h2
    have hlt : dst + i < dst + (xs.length + ys.length) := by omega
    simp [memRead, memcpy, hlt, List.getD_eq_getElem?_getD, List.getElem?_append_left hi,
      List.getElem?_eq_getElem hi]
    intro h3
    omega

theorem memRead_memcpy_self (m : Mem) (dst : Nat) (src : List Nat) :
    memRead (memcpy m dst src) dst src.length = src := by
  have h := memRead_memcpy_take m dst src []
  simpa using h

/-! ## Decimal lemmas -/

theorem toDecimalAux_eq (n : Nat) : ∀ (fuel : Nat) (acc : List Nat), n < fuel →
    toDecimalAux fuel n acc = toDecimal n ++ acc := by
  induction n using Nat.strong_induction_on with
  | _ n ih =>
    intro fuel acc h
    obtain ⟨f, rfl⟩ : ∃ f, fuel = f + 1 := ⟨fuel - 1, by omega⟩
    unfold toDecimal
    simp only [toDecimalAux]
    by_cases h10 : n < 10
    · simp [h10]
    · simp only [h10, if_false]
      rw [ih (n / 10) (by omega) f _ (by omega), ih (n / 10) (by omega) n _ (by omega)]
      simp

theorem toDecimal_of_lt (n : Nat) (h : n < 10) : toDecimal n = [48 + n] := by
  simp [toDecimal, toDecimalAux, h]

theorem toDecimal_of_ge (n : Nat) (h : 10 ≤ n) :
    toDecimal n = toDecimal (n / 10) ++ [48 + n % 10] := by
  have h10 : ¬ n < 10 := by omega
  conv_lhs => unfold toDecimal
  simp only [toDecimalAux, h10, if_false]
  exact toDecimalAux_eq (n / 10) n _ (by omega)

theorem toDecimal_isdigit (n : Nat) : ∀ c ∈ toDecimal n, isdigit c = true := by
  induction n using Nat.strong_induction_on with
  | _ n ih =>
    intro c hc
    by_cases h10 : n < 10
    · rw [toDecimal_of_lt n h10] at hc
      simp at hc
      subst hc
      simp [isdigit]
      omega
    · rw [toDecimal_of_ge n (by omega)] at hc
      simp at hc
      rcases hc with hc | hc
      · exact ih (n / 10) (by omega) c hc
      · subst hc
        simp [isdigit]
        omega

theorem digitsValue_append_one (ds : List Nat) (c : Nat) :
    digitsValue (ds ++ [c]) = digitsValue ds * 10 + (c - 48) := by
  simp [digitsValue, List.foldl_append]

theorem digitsValue_toDecimal (n : Nat) : digitsValue (toDecimal n) = n := by
  induction n using Nat.strong_induction_on with
  | _ n ih =>
    by_cases h10 : n < 10
    · rw [toDecimal_of_lt n h10]
      simp [digitsValue]
    · rw [toDecimal_of_ge n (by omega), digitsValue_append_one, ih (n / 10) (by omega)]
      omega

theorem toDecimal_length_pos (n : Nat) : 0 < (toDecimal n).length := by
  by_cases h10 : n < 10
  · rw [toDecimal_of_lt n h10]; simp
  · rw [toDecimal_of_ge n (by omega)]; simp

/-- The first digit printed for a positive number is not `0`. -/
theorem toDecimal_head (n : Nat) (hn : 0 < n) :
    49 ≤ (toDecimal n).getD 0 0 ∧ (toDecimal n).getD 0 0 ≤ 57 := by
  induction n using Nat.strong_induction_on with
  | _ n ih =>
    by_cases h10 : n < 10
    · rw [toDecimal_of_lt n h10]
      simp
      omega
    · rw [toDecimal_of_ge n (by omega), List.getD_append _ _ _ _ (toDecimal_length_pos _)]
      exact ih (n / 10) (by omega) (by omega)

/-- A number with `L` printed digits lies in `[10 ^ (L - 1), 10 ^ L)`. -/
theorem toDecimal_length_bounds (n : Nat) :
    n < 10 ^ (toDecimal n).length ∧ (0 < n → 10 ^ ((toDecimal n).length - 1) ≤ n) := by
  induction n using Nat.strong_induction_on with
  | _ n ih =>
    by_cases h10 : n < 10
    · rw [toDecimal_of_lt n h10]
      simp
      omega
    · rw [toDecimal_of_ge n (by omega)]
      obtain ⟨h1, h2⟩ := ih (n / 10) (by omega)
      have h2 := h2 (by omega)
      have hpos := toDecimal_length_pos (n / 10)
      simp only [List.length_append, List.length_singleton, Nat.add_sub_cancel]
      constructor
      · rw [Nat.pow_succ]
        omega
      · intro _
        obtain ⟨k, hk⟩ : ∃ k, (toDecimal (n / 10)).length = k + 1 :=
          ⟨(toDecimal (n / 10)).length - 1, by omega⟩
        rw [hk] at h2 ⊢
        simp only [Nat.add_sub_cancel] at h2
        rw [Nat.pow_succ]
        omega

theorem ceilLog10Aux_spec : ∀ (fuel x k : Nat), x ≤ 10 ^ (k + fuel) →
    (∀ j, j < k → 10 ^ j < x) →
    x ≤ 10 ^ ceilLog10Aux fuel x k ∧ ∀ j, j < ceilLog10Aux fuel x k → 10 ^ j < x := by
  intro fuel
  induction fuel with
  | zero =>
    intro x k h1 h2
    exact ⟨by simpa [ceilLog10Aux] using h1, by simpa [ceilLog10Aux] using h2⟩
  | succ f ih =>
    intro x k h1 h2
    simp only [ceilLog10Aux]
    by_cases hx : x ≤ 10 ^ k
    · rw [if_pos hx]
      exact ⟨hx, h2⟩
    · rw [if_neg hx]
      apply ih x (k + 1)
      · rw [show k + 1 + f = k + (f + 1) by omega]; exact h1
      · intro j hj
        by_cases hjk : j < k
        · exact h2 j hjk
        · have : j = k := by omega
          subst this
          omega

/-- The value `ceilLog10 x` is the least exponent `k` with `x ≤ 10 ^ k`. -/
theorem ceilLog10_spec (x : Nat) :
    x ≤ 10 ^ ceilLog10 x ∧ ∀ j, j < ceilLog10 x → 10 ^ j < x := by
  apply ceilLog10Aux_spec
  · simp only [Nat.zero_add]
    exact Nat.le_of_lt (Nat.lt_pow_self (by decide) x)
  · intro j hj
    omega

/-- For a non-zero length the digit count the encoder computes is the number of
digits `%zu` prints. -/
theorem ceilLog10_succ_eq (n : Nat) (hn : 0 < n) :
    ceilLog10 (n + 1) = (toDecimal n).length := by
  obtain ⟨h1, h2⟩ := ceilLog10_spec (n + 1)
  obtain ⟨h3, h4⟩ := toDecimal_length_bounds n
  have h4 := h4 hn
  have hpos := toDecimal_length_pos n
  apply Nat.le_antisymm
  · by_contra hlt
    have := h2 (toDecimal n).length (by omega)
    omega
  · by_contra hlt
    have hle : ceilLog10 (n + 1) ≤ (toDecimal n).length - 1 := by omega
    have := Nat.pow_le_pow_right (show 0 < 10 by decide) hle
    omega

/-! ## The frame `SendImpl` writes -/

theorem SendImplFrame_eq_netstring (WriteBuffer : Mem) (b : List Nat) :
    SendImplFrame WriteBuffer b = netstring b := by
  unfold SendImplFrame SendImplFill netstring
  by_cases h0 : b.length = 0
  · have hb : b = [] := List.length_eq_zero.mp h0
    subst hb
    simp [memRead, store, List.range_succ, toDecimal, toDecimalAux]
  · have hn : 0 < b.length := by omega
    simp only [h0, if_false]
    rw [ceilLog10_succ_eq b.length hn]
    set D := toDecimal b.length with hD
    rw [show D.length + b.length + 2 = (D.length + 1) + (b.length + 1) by omega,
      memRead_add _ _ (D.length + 1) (b.length + 1), memRead_add _ _ b.length 1]
    have e1 : memRead (store (memcpy (sprintfLen WriteBuffer b.length) (D.length + 1) b)
        (D.length + b.length + 1) 44) 0 (D.length + 1) = D ++ [58] := by
      rw [memRead_store_of_outside _ _ _ _ _ (by omega),
        memRead_memcpy_of_outside _ _ _ _ _ (by omega)]
      unfold sprintfLen
      have := memRead_memcpy_take WriteBuffer 0 (D ++ [58]) [0]
      simpa [hD] using this
    have e2 : memRead (store (memcpy (sprintfLen WriteBuffer b.length) (D.length + 1) b)
        (D.length + b.length + 1) 44) (0 + (D.length + 1)) b.length = b := by
      rw [memRead_store_of_outside _ _ _ _ _ (by omega), Nat.zero_add]
      exact memRead_memcpy_self _ _ _
    have e3 : memRead (store (memcpy (sprintfLen WriteBuffer b.length) (D.length + 1) b)
        (D.length + b.length + 1) 44) (0 + (D.length + 1) + b.length) 1 = [44] := by
      rw [show 0 + (D.length + 1) + b.length = D.length + b.length + 1 by omega]
      exact memRead_store_self _ _ _
    rw [e1, e2, e3]
    simp

theorem netstring_length (b : List Nat) :
    (netstring b).length = (toDecimal b.length).length + b.length + 2 := by
  simp [netstring]
  omega

theorem SendImpl_written {Json : Type} (ch : UnixStreamSocket Json) (b : List Nat) :
    (ch.SendImpl b).producerSocket.written = ch.producerSocket.written ++ [netstring b] := by
  have h := SendImplFrame_eq_netstring ch.WriteBuffer b
  unfold SendImplFrame at h
  simp [UnixStreamSocket.SendImpl, ProducerSocket.Write, h]

theorem SendImplFill_nsLen (WriteBuffer : Mem) (b : List Nat) :
    (SendImplFill WriteBuffer b).2 = (toDecimal b.length).length + b.length + 2 := by
  unfold SendImplFill
  by_cases h0 : b.length = 0
  · simp [h0, toDecimal, toDecimalAux]
  · simp only [h0, if_false]
    rw [ceilLog10_succ_eq b.length (by omega)]

/-! ## Decoder lemmas -/

theorem digitsValue_le_append (xs ys : List Nat) :
    digitsValue xs ≤ digitsValue (xs ++ ys) := by
  induction ys using List.reverseRecOn with
  | nil => simp
  | append_singleton ys c ih =>
    rw [← List.append_assoc, digitsValue_append_one]
    omega

theorem toDecimal_zero : toDecimal 0 = [48] := rfl

theorem toDecimal_head_isdigit (n : Nat) : isdigit ((toDecimal n).getD 0 0) = true := by
  rcases Nat.eq_zero_or_pos n with h | h
  · subst h; rfl
  · have := toDecimal_head n h
    simp [isdigit]
    simp at this
    omega

/-- A slice that starts with a well-formed length, a colon, the announced
content and a comma decodes to that content. -/
theorem netstring_read_ok (D X : List Nat) (n : Nat)
    (hD : ∀ c ∈ D, isdigit c = true) (hpos : 0 < D.length)
    (hlead : D.getD 0 0 = 48 → D.length = 1)
    (hval : digitsValue D = n) (hn : n ≤ NsPayloadMaxLen)
    (hlen : n < X.length) (hcomma : X.getD n 0 = 44) :
    netstring_read (D ++ 58 :: X) = .ok (D.length + 1, n) := by
  have htw : (D ++ 58 :: X).takeWhile isdigit = D := by
    rw [List.takeWhile_append_of_pos hD, List.takeWhile_cons_of_neg (by decide)]
    simp
  have h0 : (D ++ 58 :: X).getD 0 0 = D.getD 0 0 := List.getD_append _ _ _ _ hpos
  have hlen3 : ¬ (D ++ 58 :: X).length < 3 := by
    simp only [List.length_append, List.length_cons]
    omega
  have hlz : ¬ ((D ++ 58 :: X).getD 0 0 = 48 ∧ isdigit ((D ++ 58 :: X).getD 1 0) = true) := by
    rintro ⟨ha, hb⟩
    rw [h0] at ha
    have h1 := hlead ha
    rw [List.getD_append_right _ _ _ _ (by omega), h1] at hb
    simp [isdigit] at hb
  have hdig : ¬ isdigit ((D ++ 58 :: X).getD 0 0) = false := by
    rw [h0, List.getD_eq_getElem _ _ hpos, hD _ (List.getElem_mem hpos)]
    simp
  have hcolon : (D ++ 58 :: X).getD D.length 0 = 58 := by
    rw [List.getD_append_right _ _ _ _ (Nat.le_refl _)]
    simp
  have hcm : (D ++ 58 :: X).getD (D.length + 1 + n) 0 = 44 := by
    rw [List.getD_append_right _ _ _ _ (by omega),
      show D.length + 1 + n - D.length = n + 1 by omega, List.getD_cons_succ]
    exact hcomma
  simp only [netstring_read]
  rw [if_neg hlen3, if_neg hlz, if_neg hdig, htw, hval, if_neg (by omega),
    if_neg (by simp only [List.length_append, List.length_cons]; omega),
    if_neg (by simpa using hcolon), if_neg (by simpa using hcm)]

/-- Decoding an encoded frame, whatever follows it in the slice. -/
theorem netstring_read_netstring (b rest : List Nat) (hb : b.length ≤ NsPayloadMaxLen) :
    netstring_read (netstring b ++ rest)
      = .ok ((toDecimal b.length).length + 1, b.length) := by
  have e : netstring b ++ rest = toDecimal b.length ++ 58 :: (b ++ 44 :: rest) := by
    simp [netstring]
  rw [e]
  apply netstring_read_ok _ _ _ (toDecimal_isdigit _) (toDecimal_length_pos _) _
    (digitsValue_toDecimal _) hb
  · simp
  · rw [List.getD_append_right _ _ _ _ (Nat.le_refl _)]
    simp
  · intro h48
    rcases Nat.eq_zero_or_pos b.length with h | h
    · rw [h]; rfl
    · have := toDecimal_head b.length h
      omega

/-- The conditions under which the decoder answers `TOO_SHORT`. -/
theorem netstring_read_too_short (buf : List Nat)
    (h : 3 ≤ buf.length →
      ¬ (buf.getD 0 0 = 48 ∧ isdigit (buf.getD 1 0) = true)
      ∧ isdigit (buf.getD 0 0) = true
      ∧ digitsValue (buf.takeWhile isdigit) ≤ NsPayloadMaxLen
      ∧ buf.length ≤ (buf.takeWhile isdigit).length + digitsValue (buf.takeWhile isdigit) + 1) :
    netstring_read buf = .error .NETSTRING_ERROR_TOO_SHORT := by
  simp only [netstring_read]
  by_cases h3 : buf.length < 3
  · rw [if_pos h3]
  · obtain ⟨h1, h2, h4, h5⟩ := h (by omega)
    rw [if_neg h3, if_neg h1, if_neg (by rw [h2]; decide), if_neg (by omega), if_pos (by omega)]

/-- Every proper initial part of an encoded frame is Incomplete. -/
theorem netstring_read_initial_part (b c1 c2 : List Nat) (hb : b.length ≤ NsPayloadMaxLen)
    (hsplit : c1 ++ c2 = netstring b) (hc2 : c2 ≠ []) :
    netstring_read c1 = .error .NETSTRING_ERROR_TOO_SHORT := by
  apply netstring_read_too_short
  intro h3
  have hc2len : 0 < c2.length := List.length_pos.mpr hc2
  have hDpos := toDecimal_length_pos b.length
  have hlenEq : c1.length + c2.length = (toDecimal b.length).length + b.length + 2 := by
    rw [← List.length_append, hsplit, netstring_length]
  have hnpos : 0 < b.length := by
    rcases Nat.eq_zero_or_pos b.length with h | h
    · rw [h, toDecimal_zero] at hlenEq
      simp at hlenEq
      omega
    · exact h
  have hhead := toDecimal_head b.length hnpos
  have hc10 : c1.getD 0 0 = (toDecimal b.length).getD 0 0 := by
    have : (c1 ++ c2).getD 0 0 = (netstring b).getD 0 0 := by rw [hsplit]
    rw [List.getD_append _ _ _ _ (by omega)] at this
    rw [this]
    unfold netstring
    exact List.getD_append _ _ _ _ hDpos
  refine ⟨?_, ?_, ?_⟩
  · rintro ⟨ha, _⟩
    omega
  · rw [hc10]; exact toDecimal_head_isdigit _
  · unfold netstring at hsplit
    rcases List.append_eq_append_iff.mp hsplit with ⟨a, ha1, ha2⟩ | ⟨c, hc1, hc2b⟩
    · -- `c1` ends inside the digits
      have hall : ∀ x ∈ c1, isdigit x = true := by
        intro x hx
        apply toDecimal_isdigit b.length
        rw [ha1]
        exact List.mem_append_left _ hx
      have htw : c1.takeWhile isdigit = c1 := List.takeWhile_eq_self_iff.mpr hall
      rw [htw]
      have hle := digitsValue_le_append c1 a
      rw [← ha1, digitsValue_toDecimal] at hle
      exact ⟨by omega, by omega⟩
    · -- `c1` holds all the digits
      rcases c with _ | ⟨x, c⟩
      · have hc1b : c1 = toDecimal b.length := by simpa using hc1
        have htw : c1.takeWhile isdigit = c1 := by
          rw [hc1b]
          exact List.takeWhile_eq_self_iff.mpr (toDecimal_isdigit _)
        rw [htw, hc1b, digitsValue_toDecimal]
        exact ⟨hb, by omega⟩
      · have hx : x = 58 := by
          have := hc2b
          simp at this
          exact this.1.symm
        subst hx
        have htw : c1.takeWhile isdigit = toDecimal b.length := by
          rw [hc1, List.takeWhile_append_of_pos (toDecimal_isdigit _),
            List.takeWhile_cons_of_neg (by decide)]
          simp
        rw [htw, digitsValue_toDecimal]
        exact ⟨hb, by omega⟩

/-! ## Read handler lemmas -/

theorem memRead_succ (m : Mem) (off n : Nat) :
    memRead m off (n + 1) = m off :: memRead m (off + 1) n := by
  rw [show n + 1 = 1 + n by omega, memRead_add]
  simp [memRead, List.range_succ]

theorem memRead_middle (m : Mem) (off : Nat) (X Y Z : List Nat)
    (h : memRead m off (X.length + Y.length + Z.length) = X ++ Y ++ Z) :
    memRead m (off + X.length) Y.length = Y := by
  rw [memRead_add, memRead_add] at h
  have h1 := (List.append_inj h (by simp [memRead_length])).1
  exact (List.append_inj h1 (by simp [memRead_length])).2

/-- The slice the read handler passes to the decoder after a read event on a
socket whose cursor is at 0. -/
theorem received_slice (cs : ConsumerSocket) (X chunk : List Nat) (h0 : cs.msgStart = 0)
    (hX : memRead cs.buffer 0 cs.bufferDataLen = X) :
    memRead (cs.received chunk).buffer (cs.received chunk).msgStart
        ((cs.received chunk).bufferDataLen - (cs.received chunk).msgStart) = X ++ chunk := by
  simp only [ConsumerSocket.received, h0, Nat.sub_zero]
  rw [memRead_add, memRead_memcpy_of_outside _ _ _ _ _ (Or.inr (by omega)), hX, Nat.zero_add,
    memRead_memcpy_self]

/-- An Incomplete slice in a buffer that still has room: the handler returns
without touching anything. -/
theorem UserOnUnixStreamRead_wait {Json L : Type} (parse : List Nat → Option Json)
    (listener : ConsumerSocket.Listener Json L) (cs : ConsumerSocket) (l : L)
    (hopen : cs.closed = false)
    (hdec : netstring_read (memRead cs.buffer cs.msgStart (cs.bufferDataLen - cs.msgStart))
      = .error .NETSTRING_ERROR_TOO_SHORT)
    (hroom : cs.bufferDataLen ≠ cs.bufferSize) :
    cs.UserOnUnixStreamRead parse listener l = (cs, l) := by
  simp [ConsumerSocket.UserOnUnixStreamRead, hopen, hdec, hroom]

/-- What the handler does when the unparsed bytes start with the frame of `b`:
a `P` frame goes to the payload callback without its type byte, a frame that
starts with an opening brace and parses goes to the message callback. -/
theorem UserOnUnixStreamRead_frame {Json L : Type} (parse : List Nat → Option Json)
    (listener : ConsumerSocket.Listener Json L) (cs : ConsumerSocket) (l : L)
    (b rest : List Nat) (hopen : cs.closed = false) (hb : b.length ≤ NsPayloadMaxLen)
    (hbuf : memRead cs.buffer cs.msgStart (cs.bufferDataLen - cs.msgStart)
      = netstring b ++ rest) :
    (∀ p, b = 80 :: p →
      cs.UserOnUnixStreamRead parse listener l
        = (cs, listener.OnConsumerSocketPayload l p p.length))
    ∧ (∀ r j, b = 123 :: r → parse b = some j →
      cs.UserOnUnixStreamRead parse listener l
        = (cs, listener.OnConsumerSocketMessage l j)) := by
  have hdec := netstring_read_netstring b rest hb
  rw [← hbuf] at hdec
  have hlen : cs.bufferDataLen - cs.msgStart = (netstring b ++ rest).length := by
    rw [← hbuf, memRead_length]
  have hcontent : memRead cs.buffer (cs.msgStart + ((toDecimal b.length).length + 1)) b.length
      = b := by
    have h := memRead_middle cs.buffer cs.msgStart (toDecimal b.length ++ [58]) b (44 :: rest)
    simp only [List.length_append, List.length_singleton] at h
    apply h
    have e1 : (toDecimal b.length).length + 1 + b.length + (44 :: rest).length
        = cs.bufferDataLen - cs.msgStart := by
      rw [hlen]
      simp only [netstring, List.length_append, List.length_cons, List.length_singleton,
        List.length_nil]
      omega
    rw [e1, hbuf]
    simp [netstring]
  constructor
  · intro p hp
    subst hp
    rw [List.length_cons, memRead_succ] at hcontent
    have hc := List.cons.inj hcontent
    simp only [ConsumerSocket.UserOnUnixStreamRead, hopen, hdec]
    simp [hc.1, hc.2]
  · intro r j hr hj
    subst hr
    rw [List.length_cons] at hcontent
    have hj2 : parse (memRead cs.buffer
        (cs.msgStart + ((toDecimal (r.length + 1)).length + 1)) (r.length + 1)) = some j := by
      rw [hcontent]; exact hj
    have hfirst : cs.buffer (cs.msgStart + ((toDecimal (r.length + 1)).length + 1)) = 123 := by
      rw [memRead_succ] at hcontent
      exact (List.cons.inj hcontent).1
    simp only [ConsumerSocket.UserOnUnixStreamRead, hopen, hdec]
    simp [hfirst, hj2]

/-- What the handler does when the unparsed bytes start with the frame of a `b`
that begins with an opening brace and does not parse: no callback, one log
entry. -/
theorem UserOnUnixStreamRead_frame_unparsed {Json L : Type} (parse : List Nat → Option Json)
    (listener : ConsumerSocket.Listener Json L) (cs : ConsumerSocket) (l : L)
    (b rest : List Nat) (hopen : cs.closed = false) (hb : b.length ≤ NsPayloadMaxLen)
    (hbuf : memRead cs.buffer cs.msgStart (cs.bufferDataLen - cs.msgStart)
      = netstring b ++ rest)
    (r : List Nat) (hr : b = 123 :: r) (hj : parse b = none) :
    cs.UserOnUnixStreamRead parse listener l
      = ({ cs with errors := cs.errors ++ ["JSON parsing error"] }, l) := by
  have hdec := netstring_read_netstring b rest hb
  rw [← hbuf] at hdec
  have hlen : cs.bufferDataLen - cs.msgStart = (netstring b ++ rest).length := by
    rw [← hbuf, memRead_length]
  have hcontent : memRead cs.buffer (cs.msgStart + ((toDecimal b.length).length + 1)) b.length
      = b := by
    have h := memRead_middle cs.buffer cs.msgStart (toDecimal b.length ++ [58]) b (44 :: rest)
    simp only [List.length_append, List.length_singleton] at h
    apply h
    have e1 : (toDecimal b.length).length + 1 + b.length + (44 :: rest).length
        = cs.bufferDataLen - cs.msgStart := by
      rw [hlen]
      simp only [netstring, List.length_append, List.length_cons, List.length_singleton,
        List.length_nil]
      omega
    rw [e1, hbuf]
    simp [netstring]
  subst hr
  rw [List.length_cons] at hcontent
  have hj2 : parse (memRead cs.buffer
      (cs.msgStart + ((toDecimal (r.length + 1)).length + 1)) (r.length + 1)) = none := by
    rw [hcontent]; exact hj
  have hfirst : cs.buffer (cs.msgStart + ((toDecimal (r.length + 1)).length + 1)) = 123 := by
    rw [memRead_succ] at hcontent
    exact (List.cons.inj hcontent).1
  simp only [ConsumerSocket.UserOnUnixStreamRead, hopen, hdec]
  simp [hfirst, hj2]

/-! ## Claims -/

/-- C1: for every byte string `b` of at most 4194304 bytes, the block `SendImpl`
hands to `Write` is the decimal length of `b`, then a colon, then `b`
unchanged, then a comma, whatever the scratch buffer held before; the decimal
length is a run of ASCII digits whose value is `len(b)`, it is the single digit
`0` when `b` is empty and does not start with `0` otherwise; `nsLen` is the
digit count plus `len(b) + 2`; the empty input gives the three bytes `0:,`. -/
theorem SendImpl_frame_exact {Json : Type} (ch : UnixStreamSocket Json) (b : List Nat)
    (h : b.length ≤ NsPayloadMaxLen) :
    (ch.SendImpl b).producerSocket.written
        = ch.producerSocket.written ++ [toDecimal b.length ++ [58] ++ b ++ [44]]
    ∧ (∀ c ∈ toDecimal b.length, 48 ≤ c ∧ c ≤ 57)
    ∧ digitsValue (toDecimal b.length) = b.length
    ∧ (b.length = 0 → toDecimal b.length = [48])
    ∧ (0 < b.length → (toDecimal b.length).getD 0 0 ≠ 48)
    ∧ (SendImplFill ch.WriteBuffer b).2 = (toDecimal b.length).length + b.length + 2
    ∧ (b = [] → (ch.SendImpl b).producerSocket.written
        = ch.producerSocket.written ++ [[48, 58, 44]]) := by
  have _ := h
  refine ⟨?_, ?_, digitsValue_toDecimal _, ?_, ?_, SendImplFill_nsLen _ _, ?_⟩
  · rw [SendImpl_written]
    simp [netstring]
  · intro c hc
    have := toDecimal_isdigit _ c hc
    simpa [isdigit] using this
  · intro h0
    rw [h0]
    rfl
  · intro hpos
    have := toDecimal_head b.length hpos
    omega
  · intro hb
    subst hb
    rw [SendImpl_written]
    rfl

/-- C1 at the payload `[1, 2, 3]`. -/
theorem SendImpl_frame_exact_witness :
    ((⟨⟨false, fun _ => 0, 16, 0, 0, []⟩, ⟨false, []⟩, none, fun _ => 255, [], []⟩ :
        UnixStreamSocket Unit).SendImpl [1, 2, 3]).producerSocket.written
      = [[51, 58, 1, 2, 3, 44]] :=
  (SendImpl_frame_exact
    (⟨⟨false, fun _ => 0, 16, 0, 0, []⟩, ⟨false, []⟩, none, fun _ => 255, [], []⟩ :
        UnixStreamSocket Unit) [1, 2, 3] (by decide)).1

/-- C2 (round trip): for every byte string `b` of at most 4194304 bytes, the
decoder accepts the frame `SendImpl` produces for `b`; the content it points at
is `b`, with length `len(b)`; and the consumed length the read loop computes
(content offset + length + 1) is the whole frame, digits + 1 + `len(b)` + 1. -/
theorem netstring_read_SendImpl_roundtrip (WriteBuffer : Mem) (b : List Nat)
    (h : b.length ≤ NsPayloadMaxLen) :
    netstring_read (SendImplFrame WriteBuffer b)
        = .ok ((toDecimal b.length).length + 1, b.length)
    ∧ ((SendImplFrame WriteBuffer b).drop ((toDecimal b.length).length + 1)).take b.length = b
    ∧ consumedLen ((toDecimal b.length).length + 1, b.length)
        = (SendImplFrame WriteBuffer b).length
    ∧ (SendImplFrame WriteBuffer b).length = (toDecimal b.length).length + 1 + b.length + 1 := by
  rw [SendImplFrame_eq_netstring]
  refine ⟨?_, ?_, ?_, ?_⟩
  · have := netstring_read_netstring b [] h
    simpa using this
  · have e : netstring b = (toDecimal b.length ++ [58]) ++ (b ++ [44]) := by simp [netstring]
    rw [e, List.drop_append_of_le_length (by simp), List.drop_of_length_le (by simp)]
    simp
  · rw [netstring_length]
    simp only [consumedLen]
    omega
  · rw [netstring_length]
    omega

/-- C2 at the payload `[80, 1, 2]`. -/
theorem netstring_read_SendImpl_roundtrip_witness :
    netstring_read (SendImplFrame (fun _ => 255) [80, 1, 2]) = .ok (2, 3)
    ∧ ((SendImplFrame (fun _ => 255) [80, 1, 2]).drop 2).take 3 = [80, 1, 2] :=
  ⟨(netstring_read_SendImpl_roundtrip (fun _ => 255) [80, 1, 2] (by decide)).1,
    (netstring_read_SendImpl_roundtrip (fun _ => 255) [80, 1, 2] (by decide)).2.1⟩

/-- C3, as stated, fails: for the 35-byte serialized header of the scenario
(an object with data x = 1 and event datasend) and the payload `[1, 2, 3]`, what
`Send` writes is not the frame of an opening brace followed by the text and then
the frame of `P` followed by the payload; it is the frame of the text and the
frame of the payload, with no byte added to either. -/
theorem Send_type_bytes_counterexample :
    ((UnixStreamSocket.new (List Nat) (fun _ => 0) (fun _ => 0)).Send (fun j => j)
        [123, 34, 100, 97, 116, 97, 34, 58, 123, 34, 120, 34, 58, 49, 125, 44, 34, 101, 118,
          101, 110, 116, 34, 58, 34, 100, 97, 116, 97, 115, 101, 110, 100, 34, 125]
        [1, 2, 3]).producerSocket.written
      ≠ [SendImplFrame (fun _ => 0)
          (123 :: [123, 34, 100, 97, 116, 97, 34, 58, 123, 34, 120, 34, 58, 49, 125, 44, 34,
            101, 118, 101, 110, 116, 34, 58, 34, 100, 97, 116, 97, 115, 101, 110, 100, 34, 125]),
        SendImplFrame (fun _ => 0) (80 :: [1, 2, 3])]
    ∧ ((UnixStreamSocket.new (List Nat) (fun _ => 0) (fun _ => 0)).Send (fun j => j)
        [123, 34, 100, 97, 116, 97, 34, 58, 123, 34, 120, 34, 58, 49, 125, 44, 34, 101, 118,
          101, 110, 116, 34, 58, 34, 100, 97, 116, 97, 115, 101, 110, 100, 34, 125]
        [1, 2, 3]).producerSocket.written
      = [[51, 53, 58, 123, 34, 100, 97, 116, 97, 34, 58, 123, 34, 120, 34, 58, 49, 125, 44, 34,
          101, 118, 101, 110, 116, 34, 58, 34, 100, 97, 116, 97, 115, 101, 110, 100, 34, 125, 44],
        [51, 58, 1, 2, 3, 44]] := by
  decide

/-- C3, amended: for every header whose serialized text is `dump jsonMessage`
and every payload, both within the 4194304-byte limit, `Send` on an open channel
hands `Write` exactly two blocks, header first: the frame whose content is the
serialized text itself, then the frame whose content is the payload bytes
themselves. -/
theorem Send_writes_two_frames {Json : Type} (dump : Json → List Nat)
    (ch : UnixStreamSocket Json) (jsonMessage : Json) (payload : List Nat)
    (hopen : ch.producerSocket.closed = false)
    (hmsg : (dump jsonMessage).length ≤ NsPayloadMaxLen)
    (hpay : payload.length ≤ NsPayloadMaxLen) :
    (ch.Send dump jsonMessage payload).producerSocket.written
      = ch.producerSocket.written
        ++ [toDecimal (dump jsonMessage).length ++ [58] ++ dump jsonMessage ++ [44],
            toDecimal payload.length ++ [58] ++ payload ++ [44]] := by
  unfold UnixStreamSocket.Send
  rw [if_neg (by simp [hopen])]
  simp only []
  rw [if_neg (by omega), if_neg (by omega), SendImpl_written, SendImpl_written]
  simp [netstring]

/-- C3 amended, at the header text `{}` and the payload `[1, 2, 3]`. -/
theorem Send_writes_two_frames_witness :
    ((UnixStreamSocket.new (List Nat) (fun _ => 0) (fun _ => 0)).Send (fun j => j)
        [123, 125] [1, 2, 3]).producerSocket.written
      = [[50, 58, 123, 125, 44], [51, 58, 1, 2, 3, 44]] :=
  Send_writes_two_frames (fun j => j) (UnixStreamSocket.new (List Nat) (fun _ => 0) (fun _ => 0))
    [123, 125] [1, 2, 3] rfl (by decide) (by decide)

/-- C4 (oversized send): when the serialized header is longer than 4194304 bytes
or the payload is, `Send` hands nothing to `Write`, neither the header frame nor
the payload frame, even when the other part is within the limit; the scratch
buffer is not touched either. -/
theorem Send_oversized_writes_nothing {Json : Type} (dump : Json → List Nat)
    (ch : UnixStreamSocket Json) (jsonMessage : Json) (payload : List Nat)
    (h : NsPayloadMaxLen < (dump jsonMessage).length ∨ NsPayloadMaxLen < payload.length) :
    (ch.Send dump jsonMessage payload).producerSocket = ch.producerSocket
    ∧ (ch.Send dump jsonMessage payload).WriteBuffer = ch.WriteBuffer := by
  unfold UnixStreamSocket.Send
  by_cases hc : ch.producerSocket.closed = true
  · simp [hc]
  · rw [if_neg hc]
    simp only []
    by_cases h1 : (dump jsonMessage).length > NsPayloadMaxLen
    · simp [h1]
    · have h2 : payload.length > NsPayloadMaxLen := by omega
      simp [h1, h2]

/-- C4 at a two-byte header and a payload of 4194305 bytes. -/
theorem Send_oversized_writes_nothing_witness :
    ((UnixStreamSocket.new (List Nat) (fun _ => 0) (fun _ => 0)).Send (fun j => j)
        [123, 125] (List.replicate 4194305 0)).producerSocket
      = (UnixStreamSocket.new (List Nat) (fun _ => 0) (fun _ => 0)).producerSocket :=
  (Send_oversized_writes_nothing (fun j => j)
    (UnixStreamSocket.new (List Nat) (fun _ => 0) (fun _ => 0)) [123, 125]
    (List.replicate 4194305 0)
    (Or.inr (by rw [List.length_replicate]; decide))).1

/-- C5 (closed-channel send): whatever the header and the payload, of any size,
`Send` on a channel whose producer socket is closed returns the channel state as
it was: nothing is handed to `Write`, nothing is reported, nothing changes. -/
theorem Send_closed_noop {Json : Type} (dump : Json → List Nat)
    (ch : UnixStreamSocket Json) (jsonMessage : Json) (payload : List Nat)
    (hclosed : ch.producerSocket.closed = true) :
    ch.Send dump jsonMessage payload = ch := by
  unfold UnixStreamSocket.Send
  rw [if_pos hclosed]

/-- C5 at a closed channel, with an oversized payload. -/
theorem Send_closed_noop_witness :
    ({ UnixStreamSocket.new (List Nat) (fun _ => 0) (fun _ => 0) with
        producerSocket := ⟨true, []⟩ }.Send (fun j => j) [123, 125]
        (List.replicate 4194305 0)).producerSocket.written = [] :=
  congrArg (fun c => c.producerSocket.written)
    (Send_closed_noop (fun j => j)
      { UnixStreamSocket.new (List Nat) (fun _ => 0) (fun _ => 0) with
        producerSocket := ⟨true, []⟩ } [123, 125] (List.replicate 4194305 0) rfl)

/-- C6 (multi-frame batching), evaluated: the frames of `[80, 1]` and `[80, 2]`
arrive in one read on an empty buffer; one run of the read handler calls the
payload callback for the first frame only and returns with the cursor still at
0 and all 10 bytes still buffered. The second frame is not dispatched. -/
theorem batch_only_first_frame_dispatched :
    (ConsumerSocket.OnRead (fun _ => (none : Option Unit)) (recorder Unit)
        (⟨false, fun _ => 0, NsMessageMaxLen, 0, 0, []⟩, [])
        (SendImplFrame (fun _ => 0) [80, 1] ++ SendImplFrame (fun _ => 0) [80, 2])).2
      = [.payload [1] 1]
    ∧ (ConsumerSocket.OnRead (fun _ => (none : Option Unit)) (recorder Unit)
        (⟨false, fun _ => 0, NsMessageMaxLen, 0, 0, []⟩, [])
        (SendImplFrame (fun _ => 0) [80, 1] ++ SendImplFrame (fun _ => 0) [80, 2])).1.msgStart
      = 0
    ∧ (ConsumerSocket.OnRead (fun _ => (none : Option Unit)) (recorder Unit)
        (⟨false, fun _ => 0, NsMessageMaxLen, 0, 0, []⟩, [])
        (SendImplFrame (fun _ => 0) [80, 1]
          ++ SendImplFrame (fun _ => 0) [80, 2])).1.bufferDataLen
      = 10 := by
  decide

/-- C7, as stated, fails: the content `b`, an opening brace followed by `x`, is
non-empty, has a valid type byte and its frame `2:` ++ `b` ++ `,` fits the
receive buffer; the frame reaches an open, empty buffer as the two non-empty
chunks `2:` and `b` ++ `,`. The JSON library rejects `b`, and after the second
read the handler has made no callback at all, where the claim promises exactly
one frame; it has logged the parse error. -/
theorem split_frame_unparsed_counterexample :
    [50, 58] ++ [123, 120, 44] = SendImplFrame (fun _ => 0) [123, 120]
    ∧ (SendImplFrame (fun _ => 0) [123, 120]).length ≤ NsMessageMaxLen
    ∧ sampleParse [123, 120] = none
    ∧ (ConsumerSocket.OnRead sampleParse (recorder (List Nat))
        (⟨false, fun _ => 0, NsMessageMaxLen, 0, 0, []⟩, []) [50, 58]).2 = []
    ∧ (ConsumerSocket.OnRead sampleParse (recorder (List Nat))
        (ConsumerSocket.OnRead sampleParse (recorder (List Nat))
          (⟨false, fun _ => 0, NsMessageMaxLen, 0, 0, []⟩, []) [50, 58])
        [123, 120, 44]).2 = []
    ∧ (ConsumerSocket.OnRead sampleParse (recorder (List Nat))
        (ConsumerSocket.OnRead sampleParse (recorder (List Nat))
          (⟨false, fun _ => 0, NsMessageMaxLen, 0, 0, []⟩, []) [50, 58])
        [123, 120, 44]).1.errors = ["JSON parsing error"] := by
  decide

/-- C7, amended (split-frame reassembly): the frame of `b` reaches an open,
empty receive buffer that can hold it in two non-empty chunks, one per read.
The read handler after the first read calls no callback and leaves the socket as
the read left it. The read handler after the second read makes exactly one
callback, carrying `b`, when `b` starts with `P` (the payload callback with `b`
minus its type byte) and when `b` starts with an opening brace and its content
parses (the message callback with the parsed `b`); when `b` starts with an
opening brace and its content does not parse, it makes no callback and logs the
parse error. -/
theorem split_frame_reassembled {Json : Type} (parse : List Nat → Option Json)
    (cs : ConsumerSocket) (l : List (Dispatched Json)) (WriteBuffer : Mem)
    (b c1 c2 : List Nat)
    (hopen : cs.closed = false) (hstart : cs.msgStart = 0) (hempty : cs.bufferDataLen = 0)
    (hb : b.length ≤ NsPayloadMaxLen)
    (hfit : (SendImplFrame WriteBuffer b).length ≤ cs.bufferSize)
    (hsplit : c1 ++ c2 = SendImplFrame WriteBuffer b) (hc1 : c1 ≠ []) (hc2 : c2 ≠ []) :
    ConsumerSocket.OnRead parse (recorder Json) (cs, l) c1 = (cs.received c1, l)
    ∧ (∀ p, b = 80 :: p →
        (ConsumerSocket.OnRead parse (recorder Json)
          (ConsumerSocket.OnRead parse (recorder Json) (cs, l) c1) c2).2
          = l ++ [.payload p p.length])
    ∧ (∀ r j, b = 123 :: r → parse b = some j →
        (ConsumerSocket.OnRead parse (recorder Json)
          (ConsumerSocket.OnRead parse (recorder Json) (cs, l) c1) c2).2
          = l ++ [.message j])
    ∧ (∀ r, b = 123 :: r → parse b = none →
        (ConsumerSocket.OnRead parse (recorder Json)
          (ConsumerSocket.OnRead parse (recorder Json) (cs, l) c1) c2).2 = l
        ∧ (ConsumerSocket.OnRead parse (recorder Json)
          (ConsumerSocket.OnRead parse (recorder Json) (cs, l) c1) c2).1.errors
          = cs.errors ++ ["JSON parsing error"]) := by
  have _ := hc1
  rw [SendImplFrame_eq_netstring] at hfit hsplit
  have hlens : c1.length + c2.length = (netstring b).length := by
    rw [← List.length_append, hsplit]
  have hc2len : 0 < c2.length := List.length_pos.mpr hc2
  have hX0 : memRead cs.buffer 0 cs.bufferDataLen = [] := by rw [hempty]; rfl
  have hslice1 := received_slice cs [] c1 hstart hX0
  rw [List.nil_append] at hslice1
  have hopen1 : (cs.received c1).closed = false := hopen
  have hstart1 : (cs.received c1).msgStart = 0 := hstart
  have hlen1 : (cs.received c1).bufferDataLen = c1.length := by
    simp [ConsumerSocket.received, hempty]
  have hsize1 : (cs.received c1).bufferSize = cs.bufferSize := rfl
  have hfirst : ConsumerSocket.OnRead parse (recorder Json) (cs, l) c1
      = (cs.received c1, l) := by
    apply UserOnUnixStreamRead_wait _ _ _ _ hopen1
    · rw [hslice1]
      exact netstring_read_initial_part b c1 c2 hb hsplit hc2
    · rw [hlen1, hsize1]
      omega
  have hX1 : memRead (cs.received c1).buffer 0 (cs.received c1).bufferDataLen = c1 := by
    have := hslice1
    rw [hstart1, Nat.sub_zero] at this
    exact this
  have hslice2 := received_slice (cs.received c1) c1 c2 hstart1 hX1
  rw [hsplit, ← List.append_nil (netstring b)] at hslice2
  have hframe := UserOnUnixStreamRead_frame parse (recorder Json)
    ((cs.received c1).received c2) l b [] hopen hb hslice2
  refine ⟨hfirst, ?_, ?_, ?_⟩
  · intro p hp
    rw [hfirst]
    simp only [ConsumerSocket.OnRead]
    rw [hframe.1 p hp]
    rfl
  · intro r j hr hj
    rw [hfirst]
    simp only [ConsumerSocket.OnRead]
    rw [hframe.2 r j hr hj]
    rfl
  · intro r hr hj
    rw [hfirst]
    simp only [ConsumerSocket.OnRead]
    rw [UserOnUnixStreamRead_frame_unparsed parse (recorder Json)
      ((cs.received c1).received c2) l b [] hopen hb hslice2 r hr hj]
    exact ⟨rfl, rfl⟩

/-- C7 amended, at the frame of `[80, 1, 2]`, split after its third byte, at the
frame of the sample control text, split after its fourth byte, and at the frame
of an opening brace followed by `x`, split after its second byte. -/
theorem split_frame_reassembled_witness :
    ConsumerSocket.OnRead (fun _ => (none : Option Unit)) (recorder Unit)
        (⟨false, fun _ => 0, NsMessageMaxLen, 0, 0, []⟩, []) [51, 58, 80]
      = ((⟨false, fun _ => 0, NsMessageMaxLen, 0, 0, []⟩ : ConsumerSocket).received [51, 58, 80],
          [])
    ∧ (ConsumerSocket.OnRead (fun _ => (none : Option Unit)) (recorder Unit)
        (ConsumerSocket.OnRead (fun _ => (none : Option Unit)) (recorder Unit)
          (⟨false, fun _ => 0, NsMessageMaxLen, 0, 0, []⟩, []) [51, 58, 80]) [1, 2, 44]).2
      = [] ++ [.payload [1, 2] 2]
    ∧ (ConsumerSocket.OnRead sampleParse (recorder (List Nat))
        (ConsumerSocket.OnRead sampleParse (recorder (List Nat))
          (⟨false, fun _ => 0, NsMessageMaxLen, 0, 0, []⟩, []) [50, 57, 58, 123])
        (sampleControlText.drop 1 ++ [44])).2
      = [] ++ [.message sampleControlText]
    ∧ (ConsumerSocket.OnRead sampleParse (recorder (List Nat))
        (ConsumerSocket.OnRead sampleParse (recorder (List Nat))
          (⟨false, fun _ => 0, NsMessageMaxLen, 0, 0, []⟩, []) [50, 58])
        [123, 120, 44]).2 = [] :=
  ⟨(split_frame_reassembled (fun _ => (none : Option Unit))
      ⟨false, fun _ => 0, NsMessageMaxLen, 0, 0, []⟩ [] (fun _ => 0) [80, 1, 2]
      [51, 58, 80] [1, 2, 44] rfl rfl rfl (by decide) (by decide) (by decide) (by decide)
      (by decide)).1,
    (split_frame_reassembled (fun _ => (none : Option Unit))
      ⟨false, fun _ => 0, NsMessageMaxLen, 0, 0, []⟩ [] (fun _ => 0) [80, 1, 2]
      [51, 58, 80] [1, 2, 44] rfl rfl rfl (by decide) (by decide) (by decide) (by decide)
      (by decide)).2.1 [1, 2] rfl,
    (split_frame_reassembled sampleParse
      ⟨false, fun _ => 0, NsMessageMaxLen, 0, 0, []⟩ [] (fun _ => 0) sampleControlText
      [50, 57, 58, 123] (sampleControlText.drop 1 ++ [44]) rfl rfl rfl (by decide) (by decide)
      (by decide) (by decide) (by decide)).2.2.1 (sampleControlText.drop 1) sampleControlText
      rfl rfl,
    ((split_frame_reassembled sampleParse
      ⟨false, fun _ => 0, NsMessageMaxLen, 0, 0, []⟩ [] (fun _ => 0) [123, 120]
      [50, 58] [123, 120, 44] rfl rfl rfl (by decide) (by decide)
      (by decide) (by decide) (by decide)).2.2.2 [120] rfl rfl).1⟩

/-- C8 (end-to-end pairing), evaluated on a fresh channel whose JSON library
and `Notification` constructor accept the sample control message: its frame and
the payload frame `P` followed by `[1, 2, 3]` arrive, in one read or in two. In
both cases the listener receives no notification and the control message stays
pending; in the two-read case the second run of the read handler decodes the
control frame again and discards it. -/
theorem pairing_never_delivered :
    ((UnixStreamSocket.new (List Nat) (fun _ => 0) (fun _ => 0)).OnRead sampleParse
        sampleNewNotification (fun _ => none)
        (SendImplFrame (fun _ => 0) sampleControlText
          ++ SendImplFrame (fun _ => 0) (80 :: [1, 2, 3]))).notified.length = 0
    ∧ ((UnixStreamSocket.new (List Nat) (fun _ => 0) (fun _ => 0)).OnRead sampleParse
        sampleNewNotification (fun _ => none)
        (SendImplFrame (fun _ => 0) sampleControlText
          ++ SendImplFrame (fun _ => 0) (80 :: [1, 2, 3]))).ongoingNotification.isSome = true
    ∧ (((UnixStreamSocket.new (List Nat) (fun _ => 0) (fun _ => 0)).OnRead sampleParse
        sampleNewNotification (fun _ => none)
        (SendImplFrame (fun _ => 0) sampleControlText)).OnRead sampleParse
        sampleNewNotification (fun _ => none)
        (SendImplFrame (fun _ => 0) (80 :: [1, 2, 3]))).notified.length = 0
    ∧ (((UnixStreamSocket.new (List Nat) (fun _ => 0) (fun _ => 0)).OnRead sampleParse
        sampleNewNotification (fun _ => none)
        (SendImplFrame (fun _ => 0) sampleControlText)).OnRead sampleParse
        sampleNewNotification (fun _ => none)
        (SendImplFrame (fun _ => 0) (80 :: [1, 2, 3]))).ongoingNotification.isSome = true
    ∧ (((UnixStreamSocket.new (List Nat) (fun _ => 0) (fun _ => 0)).OnRead sampleParse
        sampleNewNotification (fun _ => none)
        (SendImplFrame (fun _ => 0) sampleControlText)).OnRead sampleParse
        sampleNewNotification (fun _ => none)
        (SendImplFrame (fun _ => 0) (80 :: [1, 2, 3]))).errors
      = ["ongoing notification exists, discarding received message"] := by
  decide

/-- C9 (first pending wins): while a notification `n` is pending,
`OnConsumerSocketMessage` with any control message leaves `n` pending exactly as
it was, makes no listener call and changes nothing but the error log; so after a
control message that was accepted as `n`, a second control message leaves `n`
pending. -/
theorem OnConsumerSocketMessage_pending_kept {Json : Type}
    (newNotification : Json → Option (Notification Json)) (ch : UnixStreamSocket Json)
    (n : Notification Json) (m : Json) (h : ch.ongoingNotification = some n) :
    (ch.OnConsumerSocketMessage newNotification m).ongoingNotification = some n
    ∧ (ch.OnConsumerSocketMessage newNotification m).notified = ch.notified
    ∧ (ch.OnConsumerSocketMessage newNotification m).producerSocket = ch.producerSocket
    ∧ (ch.OnConsumerSocketMessage newNotification m).consumerSocket = ch.consumerSocket
    ∧ (ch.OnConsumerSocketMessage newNotification m).errors
        = ch.errors ++ ["ongoing notification exists, discarding received message"]
    ∧ ∀ (ch0 : UnixStreamSocket Json) (m1 : Json),
        ch0.ongoingNotification = none → newNotification m1 = some n →
        ((ch0.OnConsumerSocketMessage newNotification m1).OnConsumerSocketMessage
            newNotification m).ongoingNotification = some n
        ∧ ((ch0.OnConsumerSocketMessage newNotification m1).OnConsumerSocketMessage
            newNotification m).notified = ch0.notified := by
  refine ⟨?_, ?_, ?_, ?_, ?_, ?_⟩
  · simp [UnixStreamSocket.OnConsumerSocketMessage, h]
  · simp [UnixStreamSocket.OnConsumerSocketMessage, h]
  · simp [UnixStreamSocket.OnConsumerSocketMessage, h]
  · simp [UnixStreamSocket.OnConsumerSocketMessage, h]
  · simp [UnixStreamSocket.OnConsumerSocketMessage, h]
  · intro ch0 m1 h0 h1
    simp [UnixStreamSocket.OnConsumerSocketMessage, h0, h1]

/-- C9 at a channel whose pending notification came from the message `[1]`, on
arrival of the message `[2]`. -/
theorem OnConsumerSocketMessage_pending_kept_witness :
    ({ UnixStreamSocket.new (List Nat) (fun _ => 0) (fun _ => 0) with
        ongoingNotification := some ⟨"dataProducer.send", .DATA_PRODUCER_SEND, [1], [1], none, 0⟩
      }.OnConsumerSocketMessage
        (fun j => some ⟨"dataProducer.send", .DATA_PRODUCER_SEND, j, j, none, 0⟩)
        [2]).ongoingNotification
      = some ⟨"dataProducer.send", .DATA_PRODUCER_SEND, [1], [1], none, 0⟩
    ∧ (((UnixStreamSocket.new (List Nat) (fun _ => 0) (fun _ => 0)).OnConsumerSocketMessage
        (fun j => some ⟨"dataProducer.send", .DATA_PRODUCER_SEND, j, j, none, 0⟩)
        [1]).OnConsumerSocketMessage
        (fun j => some ⟨"dataProducer.send", .DATA_PRODUCER_SEND, j, j, none, 0⟩)
        [2]).ongoingNotification
      = some ⟨"dataProducer.send", .DATA_PRODUCER_SEND, [1], [1], none, 0⟩ :=
  ⟨(OnConsumerSocketMessage_pending_kept
    (fun j => some ⟨"dataProducer.send", .DATA_PRODUCER_SEND, j, j, none, 0⟩)
    { UnixStreamSocket.new (List Nat) (fun _ => 0) (fun _ => 0) with
        ongoingNotification := some ⟨"dataProducer.send", .DATA_PRODUCER_SEND, [1], [1], none, 0⟩ }
    ⟨"dataProducer.send", .DATA_PRODUCER_SEND, [1], [1], none, 0⟩ [2] rfl).1,
   ((OnConsumerSocketMessage_pending_kept
    (fun j => some ⟨"dataProducer.send", .DATA_PRODUCER_SEND, j, j, none, 0⟩)
    { UnixStreamSocket.new (List Nat) (fun _ => 0) (fun _ => 0) with
        ongoingNotification := some ⟨"dataProducer.send", .DATA_PRODUCER_SEND, [1], [1], none, 0⟩ }
    ⟨"dataProducer.send", .DATA_PRODUCER_SEND, [1], [1], none, 0⟩ [2] rfl).2.2.2.2.2
      (UnixStreamSocket.new (List Nat) (fun _ => 0) (fun _ => 0)) [1] rfl rfl).1⟩

/-- C10 (orphan payload): with no notification pending,
`OnConsumerSocketPayload` makes no listener call for any payload, leaves the
pending state empty and changes nothing but the error log. -/
theorem OnConsumerSocketPayload_orphan_dropped {Json : Type}
    (listenerThrows : Notification Json → Option String) (ch : UnixStreamSocket Json)
    (payload : List Nat) (payloadLen : Nat) (h : ch.ongoingNotification = none) :
    (ch.OnConsumerSocketPayload listenerThrows payload payloadLen).notified = ch.notified
    ∧ (ch.OnConsumerSocketPayload listenerThrows payload payloadLen).ongoingNotification = none
    ∧ (ch.OnConsumerSocketPayload listenerThrows payload payloadLen).producerSocket
        = ch.producerSocket
    ∧ (ch.OnConsumerSocketPayload listenerThrows payload payloadLen).errors
        = ch.errors ++ ["no ongoing notification, discarding received payload"] := by
  simp [UnixStreamSocket.OnConsumerSocketPayload, h]

/-- C10 at a fresh channel and the payload `[1, 2, 3]`. -/
theorem OnConsumerSocketPayload_orphan_dropped_witness :
    ((UnixStreamSocket.new (List Nat) (fun _ => 0) (fun _ => 0)).OnConsumerSocketPayload
        (fun _ => none) [1, 2, 3] 3).notified = []
    ∧ ((UnixStreamSocket.new (List Nat) (fun _ => 0) (fun _ => 0)).OnConsumerSocketPayload
        (fun _ => none) [1, 2, 3] 3).ongoingNotification = none :=
  ⟨(OnConsumerSocketPayload_orphan_dropped (fun _ => none)
      (UnixStreamSocket.new (List Nat) (fun _ => 0) (fun _ => 0)) [1, 2, 3] 3 rfl).1,
    (OnConsumerSocketPayload_orphan_dropped (fun _ => none)
      (UnixStreamSocket.new (List Nat) (fun _ => 0) (fun _ => 0)) [1, 2, 3] 3 rfl).2.1⟩

theorem OnConsumerSocketPayload_of_none {Json : Type}
    (listenerThrows : Notification Json → Option String) (ch : UnixStreamSocket Json)
    (payload : List Nat) (payloadLen : Nat) (h : ch.ongoingNotification = none) :
    (ch.OnConsumerSocketPayload listenerThrows payload payloadLen).notified = ch.notified
    ∧ (ch.OnConsumerSocketPayload listenerThrows payload payloadLen).ongoingNotification
        = none := by
  simp [UnixStreamSocket.OnConsumerSocketPayload, h]

/-- C11 (delivery clears the pending slot): with a notification `n` pending,
`OnConsumerSocketPayload` attaches exactly the payload and its length to `n`
(event and fields untouched), calls the listener exactly once, with that
notification, and leaves nothing pending, whether the listener returns normally
or throws; a second payload right after is an orphan: no further listener call,
still nothing pending. -/
theorem OnConsumerSocketPayload_delivers_and_clears {Json : Type}
    (listenerThrows : Notification Json → Option String) (ch : UnixStreamSocket Json)
    (n : Notification Json) (payload : List Nat) (payloadLen : Nat)
    (h : ch.ongoingNotification = some n) :
    (ch.OnConsumerSocketPayload listenerThrows payload payloadLen).notified
        = ch.notified ++ [n.SetPayload payload payloadLen]
    ∧ (n.SetPayload payload payloadLen).payload = some payload
    ∧ (n.SetPayload payload payloadLen).payloadLen = payloadLen
    ∧ (n.SetPayload payload payloadLen).event = n.event
    ∧ (n.SetPayload payload payloadLen).eventId = n.eventId
    ∧ (n.SetPayload payload payloadLen).internal = n.internal
    ∧ (n.SetPayload payload payloadLen).data = n.data
    ∧ (ch.OnConsumerSocketPayload listenerThrows payload payloadLen).ongoingNotification = none
    ∧ ∀ (payload2 : List Nat) (payloadLen2 : Nat),
        ((ch.OnConsumerSocketPayload listenerThrows payload payloadLen).OnConsumerSocketPayload
            listenerThrows payload2 payloadLen2).notified
          = ch.notified ++ [n.SetPayload payload payloadLen]
        ∧ ((ch.OnConsumerSocketPayload listenerThrows payload payloadLen).OnConsumerSocketPayload
            listenerThrows payload2 payloadLen2).ongoingNotification = none := by
  have hn : (ch.OnConsumerSocketPayload listenerThrows payload payloadLen).notified
      = ch.notified ++ [n.SetPayload payload payloadLen] := by
    simp only [UnixStreamSocket.OnConsumerSocketPayload, h]
    cases listenerThrows (n.SetPayload payload payloadLen) <;> rfl
  have hp : (ch.OnConsumerSocketPayload listenerThrows payload payloadLen).ongoingNotification
      = none := by
    simp only [UnixStreamSocket.OnConsumerSocketPayload, h]
  refine ⟨hn, rfl, rfl, rfl, rfl, rfl, rfl, hp, ?_⟩
  intro payload2 payloadLen2
  have h2 := OnConsumerSocketPayload_of_none listenerThrows _ payload2 payloadLen2 hp
  exact ⟨h2.1.trans hn, h2.2⟩

/-- C11 at a channel with the sample notification pending and the payload
`[1, 2, 3]`, once with a listener that returns and once with one that throws. -/
theorem OnConsumerSocketPayload_delivers_and_clears_witness :
    ({ UnixStreamSocket.new (List Nat) (fun _ => 0) (fun _ => 0) with
        ongoingNotification := some ⟨"dataProducer.send", .DATA_PRODUCER_SEND, [], [], none, 0⟩
      }.OnConsumerSocketPayload (fun _ => none) [1, 2, 3] 3).notified
      = [] ++ [⟨"dataProducer.send", .DATA_PRODUCER_SEND, [], [], some [1, 2, 3], 3⟩]
    ∧ ({ UnixStreamSocket.new (List Nat) (fun _ => 0) (fun _ => 0) with
        ongoingNotification := some ⟨"dataProducer.send", .DATA_PRODUCER_SEND, [], [], none, 0⟩
      }.OnConsumerSocketPayload (fun _ => some "failed") [1, 2, 3] 3).ongoingNotification
      = none :=
  ⟨(OnConsumerSocketPayload_delivers_and_clears (fun _ => none)
      { UnixStreamSocket.new (List Nat) (fun _ => 0) (fun _ => 0) with
        ongoingNotification := some ⟨"dataProducer.send", .DATA_PRODUCER_SEND, [], [], none, 0⟩ }
      ⟨"dataProducer.send", .DATA_PRODUCER_SEND, [], [], none, 0⟩ [1, 2, 3] 3 rfl).1,
    (OnConsumerSocketPayload_delivers_and_clears (fun _ => some "failed")
      { UnixStreamSocket.new (List Nat) (fun _ => 0) (fun _ => 0) with
        ongoingNotification := some ⟨"dataProducer.send", .DATA_PRODUCER_SEND, [], [], none, 0⟩ }
      ⟨"dataProducer.send", .DATA_PRODUCER_SEND, [], [], none, 0⟩ [1, 2, 3]
      3 rfl).2.2.2.2.2.2.2.1⟩

/-- C12 (invalid control message): with nothing pending, a control message for
which the `Notification` constructor throws leaves the pending state empty and
makes no listener call; the payload that follows is then dropped as an orphan,
again with no listener call. The event table has `DATA_PRODUCER_SEND` as its
only kind. -/
theorem OnConsumerSocketMessage_rejected_no_pending {Json : Type}
    (newNotification : Json → Option (Notification Json))
    (listenerThrows : Notification Json → Option String) (ch : UnixStreamSocket Json)
    (m : Json) (h : ch.ongoingNotification = none) (hfail : newNotification m = none) :
    (ch.OnConsumerSocketMessage newNotification m).ongoingNotification = none
    ∧ (ch.OnConsumerSocketMessage newNotification m).notified = ch.notified
    ∧ (ch.OnConsumerSocketMessage newNotification m).errors
        = ch.errors ++ ["discarding wrong Payload Channel notification"]
    ∧ (∀ (payload : List Nat) (payloadLen : Nat),
        ((ch.OnConsumerSocketMessage newNotification m).OnConsumerSocketPayload
            listenerThrows payload payloadLen).notified = ch.notified
        ∧ ((ch.OnConsumerSocketMessage newNotification m).OnConsumerSocketPayload
            listenerThrows payload payloadLen).ongoingNotification = none)
    ∧ ∀ e : EventId, e = .DATA_PRODUCER_SEND := by
  have hp : (ch.OnConsumerSocketMessage newNotification m).ongoingNotification = none := by
    simp [UnixStreamSocket.OnConsumerSocketMessage, h, hfail]
  have hn : (ch.OnConsumerSocketMessage newNotification m).notified = ch.notified := by
    simp [UnixStreamSocket.OnConsumerSocketMessage, h, hfail]
  refine ⟨hp, hn, ?_, ?_, ?_⟩
  · simp [UnixStreamSocket.OnConsumerSocketMessage, h, hfail]
  · intro payload payloadLen
    have h2 := OnConsumerSocketPayload_of_none listenerThrows _ payload payloadLen hp
    exact ⟨h2.1.trans hn, h2.2⟩
  · intro e
    cases e
    rfl

/-- C12 at a fresh channel and a control message the sample constructor
rejects, followed by the payload `[1, 2, 3]`. -/
theorem OnConsumerSocketMessage_rejected_no_pending_witness :
    ((UnixStreamSocket.new (List Nat) (fun _ => 0) (fun _ => 0)).OnConsumerSocketMessage
        sampleNewNotification [123, 125]).ongoingNotification = none
    ∧ (((UnixStreamSocket.new (List Nat) (fun _ => 0) (fun _ => 0)).OnConsumerSocketMessage
        sampleNewNotification [123, 125]).OnConsumerSocketPayload
        (fun _ => none) [1, 2, 3] 3).notified = [] :=
  ⟨(OnConsumerSocketMessage_rejected_no_pending sampleNewNotification (fun _ => none)
      (UnixStreamSocket.new (List Nat) (fun _ => 0) (fun _ => 0)) [123, 125] rfl
      rfl).1,
    ((OnConsumerSocketMessage_rejected_no_pending sampleNewNotification (fun _ => none)
      (UnixStreamSocket.new (List Nat) (fun _ => 0) (fun _ => 0)) [123, 125] rfl
      rfl).2.2.2.1 [1, 2, 3] 3).1⟩

/-! ## Single-pass lemmas for the read handler -/

theorem memRead_head (m : Mem) (off n : Nat) (hn : 0 < n) :
    (memRead m off n).getD 0 0 = m off := by
  obtain ⟨k, rfl⟩ : ∃ k, n = k + 1 := ⟨n - 1, by omega⟩
  rw [memRead_succ]
  rfl

theorem memRead_tail (m : Mem) (off n : Nat) (hn : 0 < n) :
    (memRead m off n).drop 1 = memRead m (off + 1) (n - 1) := by
  obtain ⟨k, rfl⟩ : ∃ k, n = k + 1 := ⟨n - 1, by omega⟩
  rw [memRead_succ]
  rfl

/-- The conditions under which the sample decoder answers `TOO_SHORT`. -/
theorem sampleDecoder_too_short (buf : List Nat) (h3 : 3 ≤ buf.length)
    (h1 : ¬ (buf.getD 0 0 = 48 ∧ isdigit (buf.getD 1 0) = true))
    (h2 : isdigit (buf.getD 0 0) = true)
    (h4 : digitsValue (buf.takeWhile isdigit) ≤ 999999999)
    (h5 : buf.length ≤ (buf.takeWhile isdigit).length + digitsValue (buf.takeWhile isdigit) + 1) :
    sampleDecoder buf = .error .NETSTRING_ERROR_TOO_SHORT := by
  simp only [sampleDecoder]
  rw [if_neg (by omega), if_neg h1, if_neg (by rw [h2]; decide), if_neg (by omega),
    if_pos (by omega)]

/-- The sample decoder finds the full sample buffer Incomplete: the frame it
starts announces 99999999 bytes and the buffer holds 4194313. -/
theorem sampleDecoder_sampleFullSocket :
    sampleDecoder (memRead sampleFullSocket.buffer sampleFullSocket.msgStart
        (sampleFullSocket.bufferDataLen - sampleFullSocket.msgStart))
      = .error .NETSTRING_ERROR_TOO_SHORT := by
  have hlen : sampleFullSocket.bufferDataLen - sampleFullSocket.msgStart = 9 + 4194304 := rfl
  have hstart : sampleFullSocket.msgStart = 0 := rfl
  have hhead : memRead sampleFullSocket.buffer 0 9
      = [57, 57, 57, 57, 57, 57, 57, 57] ++ 58 :: [] := by decide
  have hslice : memRead sampleFullSocket.buffer sampleFullSocket.msgStart
      (sampleFullSocket.bufferDataLen - sampleFullSocket.msgStart)
      = [57, 57, 57, 57, 57, 57, 57, 57]
        ++ 58 :: memRead sampleFullSocket.buffer (0 + 9) 4194304 := by
    rw [hlen, hstart, memRead_add, hhead]
    simp
  have htw : (memRead sampleFullSocket.buffer sampleFullSocket.msgStart
      (sampleFullSocket.bufferDataLen - sampleFullSocket.msgStart)).takeWhile isdigit
      = [57, 57, 57, 57, 57, 57, 57, 57] := by
    rw [hslice, List.takeWhile_append_of_pos (by decide),
      List.takeWhile_cons_of_neg (by decide)]
    simp
  apply sampleDecoder_too_short
  · rw [memRead_length, hlen]
    omega
  · rw [hslice]
    decide
  · rw [hslice]
    decide
  · rw [htw]
    decide
  · rw [htw, memRead_length, hlen]
    decide

/-- C13 (overflow): on an open socket whose buffer is full, with the cursor at
0, when the decoder finds the buffered bytes Incomplete, one run of the read
handler makes no callback and ends with cursor and data length both 0, the
capacity unchanged, so that the whole capacity is free for the next read. This
holds for every decoder the handler may be calling; `UserOnUnixStreamRead` is
the handler at the decoder modelled from the spec. -/
theorem overflow_discards_buffer {Json : Type}
    (decode : List Nat → Except NetstringError (Nat × Nat))
    (parse : List Nat → Option Json)
    (cs : ConsumerSocket) (l : List (Dispatched Json))
    (hopen : cs.closed = false) (hstart : cs.msgStart = 0)
    (hfull : cs.bufferDataLen = cs.bufferSize)
    (hdec : decode (memRead cs.buffer cs.msgStart (cs.bufferDataLen - cs.msgStart))
      = .error .NETSTRING_ERROR_TOO_SHORT) :
    (cs.UserOnUnixStreamReadWith decode parse (recorder Json) l).2 = l
    ∧ (cs.UserOnUnixStreamReadWith decode parse (recorder Json) l).1.msgStart = 0
    ∧ (cs.UserOnUnixStreamReadWith decode parse (recorder Json) l).1.bufferDataLen = 0
    ∧ (cs.UserOnUnixStreamReadWith decode parse (recorder Json) l).1.bufferSize
        = cs.bufferSize
    ∧ (cs.UserOnUnixStreamReadWith decode parse (recorder Json) l).1.bufferSize
        - (cs.UserOnUnixStreamReadWith decode parse (recorder Json) l).1.bufferDataLen
        = cs.bufferSize
    ∧ (cs.UserOnUnixStreamReadWith decode parse (recorder Json) l).1.errors
        = cs.errors ++ ["no more space in the buffer for the unfinished message being parsed, discarding it"]
    ∧ cs.UserOnUnixStreamRead parse (recorder Json) l
        = cs.UserOnUnixStreamReadWith netstring_read parse (recorder Json) l := by
  refine ⟨?_, ?_, ?_, ?_, ?_, ?_, rfl⟩ <;>
    simp only [ConsumerSocket.UserOnUnixStreamReadWith, hopen, hdec] <;>
    simp [hfull, hstart]

/-- C13 at the capacity the channel constructs: the full sample buffer of
`NsMessageMaxLen` bytes that starts with `99999999:`, under the sample decoder;
and at a full four-byte buffer holding `9:ab`, under the decoder modelled from
the spec. -/
theorem overflow_discards_buffer_witness :
    (sampleFullSocket.UserOnUnixStreamReadWith sampleDecoder
        (fun _ => (none : Option Unit)) (recorder Unit) []).2 = []
    ∧ (sampleFullSocket.UserOnUnixStreamReadWith sampleDecoder
        (fun _ => (none : Option Unit)) (recorder Unit) []).1.msgStart = 0
    ∧ (sampleFullSocket.UserOnUnixStreamReadWith sampleDecoder
        (fun _ => (none : Option Unit)) (recorder Unit) []).1.bufferDataLen = 0
    ∧ (sampleFullSocket.UserOnUnixStreamReadWith sampleDecoder
        (fun _ => (none : Option Unit)) (recorder Unit) []).1.bufferSize = NsMessageMaxLen
    ∧ ((sampleSocket [57, 58, 97, 98] 4 0).UserOnUnixStreamReadWith netstring_read
        (fun _ => (none : Option Unit)) (recorder Unit) []).1.bufferDataLen = 0 :=
  ⟨(overflow_discards_buffer sampleDecoder (fun _ => (none : Option Unit))
      sampleFullSocket [] rfl rfl rfl sampleDecoder_sampleFullSocket).1,
    (overflow_discards_buffer sampleDecoder (fun _ => (none : Option Unit))
      sampleFullSocket [] rfl rfl rfl sampleDecoder_sampleFullSocket).2.1,
    (overflow_discards_buffer sampleDecoder (fun _ => (none : Option Unit))
      sampleFullSocket [] rfl rfl rfl sampleDecoder_sampleFullSocket).2.2.1,
    (overflow_discards_buffer sampleDecoder (fun _ => (none : Option Unit))
      sampleFullSocket [] rfl rfl rfl sampleDecoder_sampleFullSocket).2.2.2.1,
    (overflow_discards_buffer netstring_read (fun _ => (none : Option Unit))
      (sampleSocket [57, 58, 97, 98] 4 0) [] rfl rfl rfl rfl).2.2.1⟩

/-- C14 (framing errors): on an open socket, when the decoder answers `TOO_LONG`,
`NO_COLON`, `NO_COMMA`, `LEADING_ZERO` or `NO_LENGTH` for the unparsed bytes, one
run of the read handler makes no callback, logs the code, and ends with cursor
and data length both 0, whatever else the buffer held. -/
theorem framing_error_discards_buffer {Json : Type} (parse : List Nat → Option Json)
    (cs : ConsumerSocket) (l : List (Dispatched Json)) (e : NetstringError)
    (hopen : cs.closed = false)
    (hdec : netstring_read (memRead cs.buffer cs.msgStart (cs.bufferDataLen - cs.msgStart))
      = .error e)
    (he : e = .NETSTRING_ERROR_TOO_LONG ∨ e = .NETSTRING_ERROR_NO_COLON
      ∨ e = .NETSTRING_ERROR_NO_COMMA ∨ e = .NETSTRING_ERROR_LEADING_ZERO
      ∨ e = .NETSTRING_ERROR_NO_LENGTH) :
    (cs.UserOnUnixStreamRead parse (recorder Json) l).2 = l
    ∧ (cs.UserOnUnixStreamRead parse (recorder Json) l).1.msgStart = 0
    ∧ (cs.UserOnUnixStreamRead parse (recorder Json) l).1.bufferDataLen = 0
    ∧ (cs.UserOnUnixStreamRead parse (recorder Json) l).1.bufferSize = cs.bufferSize
    ∧ (cs.UserOnUnixStreamRead parse (recorder Json) l).1.errors = cs.errors ++ [e.name] := by
  rcases he with h | h | h | h | h <;> subst h <;>
    simp [ConsumerSocket.UserOnUnixStreamRead, hopen, hdec]

/-- C14 at five buffers, one per code: `9999999:` (too long), `1a,x` (no
colon), `1:aX` followed by the valid frame `1:P,` (no comma), `01:a` (leading
zero) and `a:b,` (no length). -/
theorem framing_error_discards_buffer_witness :
    ((sampleSocket [57, 57, 57, 57, 57, 57, 57, 58] 16 0).UserOnUnixStreamRead
        (fun _ => (none : Option Unit)) (recorder Unit) []).1.bufferDataLen = 0
    ∧ ((sampleSocket [49, 97, 44, 120] 16 0).UserOnUnixStreamRead
        (fun _ => (none : Option Unit)) (recorder Unit) []).1.bufferDataLen = 0
    ∧ ((sampleSocket [49, 58, 97, 88, 49, 58, 80, 44] 16 0).UserOnUnixStreamRead
        (fun _ => (none : Option Unit)) (recorder Unit) []).2 = []
    ∧ ((sampleSocket [49, 58, 97, 88, 49, 58, 80, 44] 16 0).UserOnUnixStreamRead
        (fun _ => (none : Option Unit)) (recorder Unit) []).1.bufferDataLen = 0
    ∧ ((sampleSocket [48, 49, 58, 97] 16 0).UserOnUnixStreamRead
        (fun _ => (none : Option Unit)) (recorder Unit) []).1.bufferDataLen = 0
    ∧ ((sampleSocket [97, 58, 98, 44] 16 0).UserOnUnixStreamRead
        (fun _ => (none : Option Unit)) (recorder Unit) []).1.bufferDataLen = 0 :=
  ⟨(framing_error_discards_buffer (fun _ => (none : Option Unit))
      (sampleSocket [57, 57, 57, 57, 57, 57, 57, 58] 16 0) [] .NETSTRING_ERROR_TOO_LONG rfl
      rfl (Or.inl rfl)).2.2.1,
    (framing_error_discards_buffer (fun _ => (none : Option Unit))
      (sampleSocket [49, 97, 44, 120] 16 0) [] .NETSTRING_ERROR_NO_COLON rfl
      rfl (Or.inr (Or.inl rfl))).2.2.1,
    (framing_error_discards_buffer (fun _ => (none : Option Unit))
      (sampleSocket [49, 58, 97, 88, 49, 58, 80, 44] 16 0) [] .NETSTRING_ERROR_NO_COMMA rfl
      rfl (Or.inr (Or.inr (Or.inl rfl)))).1,
    (framing_error_discards_buffer (fun _ => (none : Option Unit))
      (sampleSocket [49, 58, 97, 88, 49, 58, 80, 44] 16 0) [] .NETSTRING_ERROR_NO_COMMA rfl
      rfl (Or.inr (Or.inr (Or.inl rfl)))).2.2.1,
    (framing_error_discards_buffer (fun _ => (none : Option Unit))
      (sampleSocket [48, 49, 58, 97] 16 0) [] .NETSTRING_ERROR_LEADING_ZERO rfl
      rfl (Or.inr (Or.inr (Or.inr (Or.inl rfl))))).2.2.1,
    (framing_error_discards_buffer (fun _ => (none : Option Unit))
      (sampleSocket [97, 58, 98, 44] 16 0) [] .NETSTRING_ERROR_NO_LENGTH rfl
      rfl (Or.inr (Or.inr (Or.inr (Or.inr rfl))))).2.2.1⟩

/-- C15 (classification by type byte): on an open socket, when the decoder
accepts the unparsed bytes as a frame with content `c` of length `n ≥ 1`, one
run of the read handler (i) for a first byte `P` makes exactly one callback, the
payload callback, with `c` minus its first byte and the length `n - 1`; (ii) for
a first byte `{` parses `c` and, when it parses, makes exactly one callback, the
message callback, and none when it does not parse; (iii) for any other first
byte makes no callback. -/
theorem frame_classified_by_type_byte {Json : Type} (parse : List Nat → Option Json)
    (cs : ConsumerSocket) (l : List (Dispatched Json)) (off n : Nat) (c : List Nat)
    (hopen : cs.closed = false)
    (hdec : netstring_read (memRead cs.buffer cs.msgStart (cs.bufferDataLen - cs.msgStart))
      = .ok (off, n))
    (hc : c = memRead cs.buffer (cs.msgStart + off) n) (hn : 1 ≤ n) :
    c.length = n
    ∧ (c.drop 1).length = n - 1
    ∧ (c.getD 0 0 = 80 →
        (cs.UserOnUnixStreamRead parse (recorder Json) l).2
          = l ++ [.payload (c.drop 1) (n - 1)])
    ∧ (c.getD 0 0 = 123 → ∀ j, parse c = some j →
        (cs.UserOnUnixStreamRead parse (recorder Json) l).2 = l ++ [.message j])
    ∧ (c.getD 0 0 = 123 → parse c = none →
        (cs.UserOnUnixStreamRead parse (recorder Json) l).2 = l)
    ∧ (c.getD 0 0 ≠ 80 → c.getD 0 0 ≠ 123 →
        (cs.UserOnUnixStreamRead parse (recorder Json) l).2 = l) := by
  have hpos : 0 < n := hn
  have hhead : c.getD 0 0 = cs.buffer (cs.msgStart + off) := by
    rw [hc]; exact memRead_head _ _ _ hpos
  have htail : c.drop 1 = memRead cs.buffer (cs.msgStart + off + 1) (n - 1) := by
    rw [hc]; exact memRead_tail _ _ _ hpos
  rw [hhead, htail, hc]
  refine ⟨memRead_length _ _ _, memRead_length _ _ _, ?_, ?_, ?_, ?_⟩
  · intro h80
    simp only [ConsumerSocket.UserOnUnixStreamRead, hopen, hdec]
    simp [hpos, h80, recorder]
  · intro h123 j hj
    simp only [ConsumerSocket.UserOnUnixStreamRead, hopen, hdec]
    simp [hpos, h123, hj, recorder]
  · intro h123 hj
    simp only [ConsumerSocket.UserOnUnixStreamRead, hopen, hdec]
    simp [hpos, h123, hj]
  · intro h80 h123
    simp only [ConsumerSocket.UserOnUnixStreamRead, hopen, hdec]
    simp [hpos, h80, h123]

/-- C15 at the frames `3:P`, 1, 2 (payload), the sample control text (message)
and `2:ab` (neither). -/
theorem frame_classified_by_type_byte_witness :
    ((sampleSocket [51, 58, 80, 1, 2, 44] 16 0).UserOnUnixStreamRead
        (fun _ => (none : Option Unit)) (recorder Unit) []).2
      = [] ++ [.payload [1, 2] 2]
    ∧ ((sampleSocket (netstring sampleControlText) 64 0).UserOnUnixStreamRead
        sampleParse (recorder (List Nat)) []).2
      = [] ++ [.message sampleControlText]
    ∧ ((sampleSocket [50, 58, 97, 98, 44] 16 0).UserOnUnixStreamRead
        (fun _ => (none : Option Unit)) (recorder Unit) []).2 = [] :=
  ⟨(frame_classified_by_type_byte (fun _ => (none : Option Unit))
      (sampleSocket [51, 58, 80, 1, 2, 44] 16 0) [] 2 3 [80, 1, 2] rfl rfl rfl
      (by decide)).2.2.1 rfl,
    (frame_classified_by_type_byte sampleParse
      (sampleSocket (netstring sampleControlText) 64 0) [] 3 29 sampleControlText rfl rfl rfl
      (by decide)).2.2.2.1 rfl sampleControlText rfl,
    (frame_classified_by_type_byte (fun _ => (none : Option Unit))
      (sampleSocket [50, 58, 97, 98, 44] 16 0) [] 2 2 [97, 98] rfl rfl rfl
      (by decide)).2.2.2.2.2 (by decide) (by decide)⟩

/-- C18 (receive-buffer invariant): whatever the buffer holds and whoever
listens, if `msgStart ≤ bufferDataLen ≤ bufferSize` before one run of the read
handler, the same holds after it, and the capacity is unchanged. -/
theorem UserOnUnixStreamRead_keeps_invariant {Json L : Type}
    (parse : List Nat → Option Json) (listener : ConsumerSocket.Listener Json L)
    (cs : ConsumerSocket) (l : L)
    (h1 : cs.msgStart ≤ cs.bufferDataLen) (h2 : cs.bufferDataLen ≤ cs.bufferSize) :
    (cs.UserOnUnixStreamRead parse listener l).1.msgStart
        ≤ (cs.UserOnUnixStreamRead parse listener l).1.bufferDataLen
    ∧ (cs.UserOnUnixStreamRead parse listener l).1.bufferDataLen
        ≤ (cs.UserOnUnixStreamRead parse listener l).1.bufferSize
    ∧ (cs.UserOnUnixStreamRead parse listener l).1.bufferSize = cs.bufferSize := by
  generalize hr : cs.UserOnUnixStreamRead parse listener l = r
  unfold ConsumerSocket.UserOnUnixStreamRead at hr
  dsimp only at hr
  repeat' split at hr
  all_goals subst hr
  all_goals first
    | exact ⟨h1, h2, rfl⟩
    | exact ⟨Nat.zero_le _, Nat.zero_le _, rfl⟩
    | exact ⟨Nat.zero_le _, Nat.le_trans (Nat.sub_le _ _) h2, rfl⟩

/-- C18 at a full six-byte buffer with the cursor at 4 (the compaction path). -/
theorem UserOnUnixStreamRead_keeps_invariant_witness :
    ((sampleSocket [49, 58, 80, 44, 57, 58] 6 4).UserOnUnixStreamRead
        (fun _ => (none : Option Unit)) (recorder Unit) []).1.msgStart
      ≤ ((sampleSocket [49, 58, 80, 44, 57, 58] 6 4).UserOnUnixStreamRead
        (fun _ => (none : Option Unit)) (recorder Unit) []).1.bufferDataLen
    ∧ ((sampleSocket [49, 58, 80, 44, 57, 58] 6 4).UserOnUnixStreamRead
        (fun _ => (none : Option Unit)) (recorder Unit) []).1.bufferDataLen
      ≤ ((sampleSocket [49, 58, 80, 44, 57, 58] 6 4).UserOnUnixStreamRead
        (fun _ => (none : Option Unit)) (recorder Unit) []).1.bufferSize :=
  ⟨(UserOnUnixStreamRead_keeps_invariant (fun _ => (none : Option Unit)) (recorder Unit)
      (sampleSocket [49, 58, 80, 44, 57, 58] 6 4) [] (by decide) (by decide)).1,
    (UserOnUnixStreamRead_keeps_invariant (fun _ => (none : Option Unit)) (recorder Unit)
      (sampleSocket [49, 58, 80, 44, 57, 58] 6 4) [] (by decide) (by decide)).2.1⟩

/-- C19 (compaction): on an open socket whose buffer is full, with the cursor
not at 0 (and not beyond the data) and the unparsed bytes Incomplete, one run of
the read handler makes no callback and ends with the cursor at 0, the data
length equal to the old data length minus the old cursor, which is less than the
capacity, and the first bytes of the buffer equal, byte for byte, to the old
unparsed bytes. -/
theorem compaction_moves_tail {Json : Type} (parse : List Nat → Option Json)
    (cs : ConsumerSocket) (l : List (Dispatched Json))
    (hopen : cs.closed = false) (hfull : cs.bufferDataLen = cs.bufferSize)
    (hcur : cs.msgStart ≠ 0) (hinv : cs.msgStart ≤ cs.bufferDataLen)
    (hdec : netstring_read (memRead cs.buffer cs.msgStart (cs.bufferDataLen - cs.msgStart))
      = .error .NETSTRING_ERROR_TOO_SHORT) :
    (cs.UserOnUnixStreamRead parse (recorder Json) l).2 = l
    ∧ (cs.UserOnUnixStreamRead parse (recorder Json) l).1.msgStart = 0
    ∧ (cs.UserOnUnixStreamRead parse (recorder Json) l).1.bufferDataLen
        = cs.bufferDataLen - cs.msgStart
    ∧ (cs.UserOnUnixStreamRead parse (recorder Json) l).1.bufferDataLen < cs.bufferSize
    ∧ (cs.UserOnUnixStreamRead parse (recorder Json) l).1.bufferSize = cs.bufferSize
    ∧ memRead (cs.UserOnUnixStreamRead parse (recorder Json) l).1.buffer 0
          (cs.UserOnUnixStreamRead parse (recorder Json) l).1.bufferDataLen
        = memRead cs.buffer cs.msgStart (cs.bufferDataLen - cs.msgStart) := by
  have hstep : cs.UserOnUnixStreamRead parse (recorder Json) l
      = ({ cs with
            buffer := memcpy cs.buffer 0
              (memRead cs.buffer cs.msgStart (cs.bufferDataLen - cs.msgStart))
            msgStart := 0
            bufferDataLen := cs.bufferDataLen - cs.msgStart }, l) := by
    simp only [ConsumerSocket.UserOnUnixStreamRead, hopen, hdec]
    simp [hfull, hcur]
  rw [hstep]
  refine ⟨rfl, rfl, rfl, ?_, rfl, ?_⟩
  · simp only []
    omega
  · have h := memRead_memcpy_self cs.buffer 0
      (memRead cs.buffer cs.msgStart (cs.bufferDataLen - cs.msgStart))
    rw [memRead_length] at h
    exact h

/-- C19 at a full six-byte buffer holding the frame `1:P,` and the two bytes
`9:`, with the cursor at 4. -/
theorem compaction_moves_tail_witness :
    ((sampleSocket [49, 58, 80, 44, 57, 58] 6 4).UserOnUnixStreamRead
        (fun _ => (none : Option Unit)) (recorder Unit) []).1.msgStart = 0
    ∧ ((sampleSocket [49, 58, 80, 44, 57, 58] 6 4).UserOnUnixStreamRead
        (fun _ => (none : Option Unit)) (recorder Unit) []).1.bufferDataLen
      = (sampleSocket [49, 58, 80, 44, 57, 58] 6 4).bufferDataLen
        - (sampleSocket [49, 58, 80, 44, 57, 58] 6 4).msgStart
    ∧ memRead ((sampleSocket [49, 58, 80, 44, 57, 58] 6 4).UserOnUnixStreamRead
          (fun _ => (none : Option Unit)) (recorder Unit) []).1.buffer 0
        ((sampleSocket [49, 58, 80, 44, 57, 58] 6 4).UserOnUnixStreamRead
          (fun _ => (none : Option Unit)) (recorder Unit) []).1.bufferDataLen
      = memRead (sampleSocket [49, 58, 80, 44, 57, 58] 6 4).buffer
          (sampleSocket [49, 58, 80, 44, 57, 58] 6 4).msgStart
          ((sampleSocket [49, 58, 80, 44, 57, 58] 6 4).bufferDataLen
            - (sampleSocket [49, 58, 80, 44, 57, 58] 6 4).msgStart) :=
  ⟨(compaction_moves_tail (fun _ => (none : Option Unit))
      (sampleSocket [49, 58, 80, 44, 57, 58] 6 4) [] rfl rfl (by decide) (by decide) rfl).2.1,
    (compaction_moves_tail (fun _ => (none : Option Unit))
      (sampleSocket [49, 58, 80, 44, 57, 58] 6 4) [] rfl rfl (by decide) (by decide)
      rfl).2.2.1,
    (compaction_moves_tail (fun _ => (none : Option Unit))
      (sampleSocket [49, 58, 80, 44, 57, 58] 6 4) [] rfl rfl (by decide) (by decide)
      rfl).2.2.2.2.2⟩

/-- C16 (cursor advance on success), evaluated. For a buffer holding exactly the
frame `2:P`, 1 the decoder succeeds with 5 bytes consumed, and one run of the
read handler leaves the cursor at 0 and the data length at 5: no reset. For a
buffer holding that frame followed by the frame `2:P`, 2 the run leaves the
cursor at 0 instead of 5, and a second run dispatches the first frame again. -/
theorem success_leaves_cursor_in_place :
    netstring_read (memRead (sampleSocket [50, 58, 80, 1, 44] 16 0).buffer
        (sampleSocket [50, 58, 80, 1, 44] 16 0).msgStart
        ((sampleSocket [50, 58, 80, 1, 44] 16 0).bufferDataLen
          - (sampleSocket [50, 58, 80, 1, 44] 16 0).msgStart)) = .ok (2, 2)
    ∧ consumedLen (2, 2) = 5
    ∧ ((sampleSocket [50, 58, 80, 1, 44] 16 0).UserOnUnixStreamRead
        (fun _ => (none : Option Unit)) (recorder Unit) []).1.msgStart = 0
    ∧ ((sampleSocket [50, 58, 80, 1, 44] 16 0).UserOnUnixStreamRead
        (fun _ => (none : Option Unit)) (recorder Unit) []).1.bufferDataLen = 5
    ∧ ((sampleSocket [50, 58, 80, 1, 44, 50, 58, 80, 2, 44] 16 0).UserOnUnixStreamRead
        (fun _ => (none : Option Unit)) (recorder Unit) []).1.msgStart = 0
    ∧ ((sampleSocket [50, 58, 80, 1, 44, 50, 58, 80, 2, 44] 16 0).UserOnUnixStreamRead
        (fun _ => (none : Option Unit)) (recorder Unit) []).1.bufferDataLen = 10
    ∧ (((sampleSocket [50, 58, 80, 1, 44, 50, 58, 80, 2, 44] 16 0).UserOnUnixStreamRead
        (fun _ => (none : Option Unit)) (recorder Unit) []).1.UserOnUnixStreamRead
        (fun _ => (none : Option Unit)) (recorder Unit)
        ((sampleSocket [50, 58, 80, 1, 44, 50, 58, 80, 2, 44] 16 0).UserOnUnixStreamRead
          (fun _ => (none : Option Unit)) (recorder Unit) []).2).2
      = [.payload [1] 1, .payload [1] 1] := by
  refine ⟨rfl, ?_, ?_, ?_, ?_, ?_, ?_⟩ <;> decide

/-- C17 (zero-length frame), evaluated. For a buffer holding `0:,` followed by
the frame `2:P`, 1 the decoder succeeds with content length 0 and 3 bytes
consumed; one run of the read handler makes no callback and logs the discard,
but leaves the cursor at 0 instead of 3, so that a second run meets the same
zero-length frame and the frame behind it is not parsed. For a buffer holding
only `0:,` the run leaves the data length at 3: no reset. -/
theorem zero_length_frame_not_skipped :
    netstring_read (memRead (sampleSocket [48, 58, 44, 50, 58, 80, 1, 44] 16 0).buffer
        (sampleSocket [48, 58, 44, 50, 58, 80, 1, 44] 16 0).msgStart
        ((sampleSocket [48, 58, 44, 50, 58, 80, 1, 44] 16 0).bufferDataLen
          - (sampleSocket [48, 58, 44, 50, 58, 80, 1, 44] 16 0).msgStart)) = .ok (2, 0)
    ∧ consumedLen (2, 0) = 3
    ∧ ((sampleSocket [48, 58, 44, 50, 58, 80, 1, 44] 16 0).UserOnUnixStreamRead
        (fun _ => (none : Option Unit)) (recorder Unit) []).2 = []
    ∧ ((sampleSocket [48, 58, 44, 50, 58, 80, 1, 44] 16 0).UserOnUnixStreamRead
        (fun _ => (none : Option Unit)) (recorder Unit) []).1.errors
      = ["message length is 0, discarding"]
    ∧ ((sampleSocket [48, 58, 44, 50, 58, 80, 1, 44] 16 0).UserOnUnixStreamRead
        (fun _ => (none : Option Unit)) (recorder Unit) []).1.msgStart = 0
    ∧ ((sampleSocket [48, 58, 44, 50, 58, 80, 1, 44] 16 0).UserOnUnixStreamRead
        (fun _ => (none : Option Unit)) (recorder Unit) []).1.bufferDataLen = 8
    ∧ (((sampleSocket [48, 58, 44, 50, 58, 80, 1, 44] 16 0).UserOnUnixStreamRead
        (fun _ => (none : Option Unit)) (recorder Unit) []).1.UserOnUnixStreamRead
        (fun _ => (none : Option Unit)) (recorder Unit)
        ((sampleSocket [48, 58, 44, 50, 58, 80, 1, 44] 16 0).UserOnUnixStreamRead
          (fun _ => (none : Option Unit)) (recorder Unit) []).2).2 = []
    ∧ (((sampleSocket [48, 58, 44, 50, 58, 80, 1, 44] 16 0).UserOnUnixStreamRead
        (fun _ => (none : Option Unit)) (recorder Unit) []).1.UserOnUnixStreamRead
        (fun _ => (none : Option Unit)) (recorder Unit)
        ((sampleSocket [48, 58, 44, 50, 58, 80, 1, 44] 16 0).UserOnUnixStreamRead
          (fun _ => (none : Option Unit)) (recorder Unit) []).2).1.errors
      = ["message length is 0, discarding", "message length is 0, discarding"]
    ∧ ((sampleSocket [48, 58, 44] 16 0).UserOnUnixStreamRead
        (fun _ => (none : Option Unit)) (recorder Unit) []).1.msgStart = 0
    ∧ ((sampleSocket [48, 58, 44] 16 0).UserOnUnixStreamRead
        (fun _ => (none : Option Unit)) (recorder Unit) []).1.bufferDataLen = 3 := by
  refine ⟨rfl, ?_, ?_, ?_, ?_, ?_, ?_, ?_, ?_, ?_⟩ <;> decide

/-! ## The scratch buffer -/

theorem toDecimal_length_le_seven (n : Nat) (h : n ≤ NsPayloadMaxLen) :
    (toDecimal n).length ≤ 7 := by
  unfold NsPayloadMaxLen at h
  rcases Nat.eq_zero_or_pos n with h0 | hpos
  · subst h0
    decide
  · by_contra hlt
    have hb := (toDecimal_length_bounds n).2 hpos
    have hle : 7 ≤ (toDecimal n).length - 1 := by omega
    have hp := Nat.pow_le_pow_right (show 0 < 10 by decide) hle
    have : (10 : Nat) ^ 7 = 10000000 := by norm_num
    omega

/-- Outside the scratch buffer nothing is stored: the buffer after `SendImpl`
agrees with the buffer before at every index from `NsMessageMaxLen` on. -/
theorem SendImplFill_untouched (WriteBuffer : Mem) (b : List Nat)
    (h : b.length ≤ NsPayloadMaxLen) (i : Nat) (hi : NsMessageMaxLen ≤ i) :
    (SendImplFill WriteBuffer b).1 i = WriteBuffer i := by
  have h7 := toDecimal_length_le_seven b.length h
  unfold NsPayloadMaxLen at h
  unfold NsMessageMaxLen at hi
  unfold SendImplFill
  by_cases h0 : b.length = 0
  · have e0 : i ≠ 0 := by omega
    have e1 : i ≠ 1 := by omega
    have e2 : i ≠ 2 := by omega
    simp [h0, store, e0, e1, e2]
  · simp only [h0, if_false]
    rw [ceilLog10_succ_eq b.length (by omega)]
    have e1 : i ≠ (toDecimal b.length).length + b.length + 1 := by omega
    have e2 : ¬ ((toDecimal b.length).length + 1 ≤ i
        ∧ i < (toDecimal b.length).length + 1 + b.length) := by omega
    have e3 : ¬ (0 ≤ i ∧ i < 0 + (toDecimal b.length ++ [58, 0]).length) := by
      simp only [List.length_append, List.length_cons, List.length_nil]
      omega
    simp only [store, memcpy, sprintfLen, if_neg e1, if_neg e2, if_neg e3]

/-- C20 (scratch-buffer bound): `NsMessageMaxLen` is the frame length of a
payload of `NsPayloadMaxLen` bytes, 7 digits + 1 + 4194304 + 1; and for every
payload of at most `NsPayloadMaxLen` bytes the length `nsLen` passed to `Write`
is at most `NsMessageMaxLen`, the three stores of `SendImpl` (`sprintf` with its
NUL, `memcpy`, the comma) end below `NsMessageMaxLen`, and the scratch buffer is
left as it was at every index from `NsMessageMaxLen` on. -/
theorem SendImpl_within_WriteBuffer (WriteBuffer : Mem) (b : List Nat)
    (h : b.length ≤ NsPayloadMaxLen) :
    (toDecimal NsPayloadMaxLen).length = 7
    ∧ (toDecimal NsPayloadMaxLen).length + 1 + NsPayloadMaxLen + 1 = NsMessageMaxLen
    ∧ (b.length = NsPayloadMaxLen → (SendImplFrame WriteBuffer b).length = NsMessageMaxLen)
    ∧ (SendImplFill WriteBuffer b).2 ≤ NsMessageMaxLen
    ∧ (b.length = 0 → 2 < NsMessageMaxLen)
    ∧ (0 < b.length →
        (toDecimal b.length).length + 2 ≤ NsMessageMaxLen
        ∧ ceilLog10 (b.length + 1) + 1 + b.length ≤ NsMessageMaxLen
        ∧ ceilLog10 (b.length + 1) + b.length + 1 < NsMessageMaxLen)
    ∧ ∀ i, NsMessageMaxLen ≤ i → (SendImplFill WriteBuffer b).1 i = WriteBuffer i := by
  have h7 := toDecimal_length_le_seven b.length h
  have hlen := SendImplFill_nsLen WriteBuffer b
  have hmax : (toDecimal NsPayloadMaxLen).length = 7 := by decide
  refine ⟨hmax, by rw [hmax]; rfl, ?_, ?_, fun _ => by decide, ?_,
    SendImplFill_untouched WriteBuffer b h⟩
  · intro hb
    rw [SendImplFrame_eq_netstring, netstring_length, hb, hmax]
    rfl
  · rw [hlen]
    unfold NsPayloadMaxLen at h
    unfold NsMessageMaxLen
    omega
  · intro hpos
    rw [ceilLog10_succ_eq b.length hpos]
    unfold NsPayloadMaxLen at h
    unfold NsMessageMaxLen
    omega

/-- C20 at the payload `[1, 2, 3]`. -/
theorem SendImpl_within_WriteBuffer_witness :
    (SendImplFill (fun _ => 255) [1, 2, 3]).2 ≤ NsMessageMaxLen
    ∧ (SendImplFill (fun _ => 255) [1, 2, 3]).1 NsMessageMaxLen = 255 :=
  ⟨(SendImpl_within_WriteBuffer (fun _ => 255) [1, 2, 3] (by decide)).2.2.2.1,
    (SendImpl_within_WriteBuffer (fun _ => 255) [1, 2, 3] (by decide)).2.2.2.2.2.2
      NsMessageMaxLen (Nat.le_refl _)⟩

end PayloadChannel
